import Mathlib

/-!
Shallow embedding of the garden-planner persistence and state layer:
the in-memory Garden Store (`src/hooks/GardenContext.js`), the SQLite
data-access layer (`src/database/db.js`), and the screen-level stage
handlers (`GardenAreaScreen` / `MyGardenScreen`).

Impure ingredients of the source are made explicit parameters:
`makeId()` results and `today()` date strings are passed in as arguments,
and every store mutation returns, besides the new in-memory state, the
list of persistence calls it dispatches.
-/

namespace Garden

/-- One journal entry as held in memory (`{ id, date, text, type }`). -/
structure JEntry where
  id : String
  date : String
  text : String
  type : String
deriving DecidableEq, Inhabited

/-- One plant record as held in memory (`GardenContext.js` plantRecord).
Nullable JS fields are `Option`. -/
structure Plant where
  id : String
  seedId : Option String
  seedTitle : Option String
  seedCategory : Option String
  seedImage : Option String
  plantedDate : String
  stage : Option String
  journal : List JEntry
deriving DecidableEq, Inhabited

/-- One area as held in memory (`GardenContext.js` area object). -/
structure Area where
  id : String
  name : String
  emoji : String
  createdAt : String
  plants : List Plant
deriving DecidableEq, Inhabited

/-- The shape of a catalog item passed to `addPlantToArea` /
`createAreaAndAddPlant` (`crops.json` rows use `name`, custom seeds use
`title`; `id`, `category`, `image_url` may be absent). -/
structure SeedInput where
  id : Option String
  title : Option String
  name : Option String
  category : Option String
  image_url : Option String
deriving DecidableEq, Inhabited

/-- JS `String.prototype.trim()`: strip leading and trailing
whitespace.  (Structural model; Lean core's `String.trim` is
well-founded-recursive and does not evaluate in the kernel.) -/
def jsTrim (s : String) : String :=
  String.mk (((s.data.dropWhile Char.isWhitespace).reverse.dropWhile
    Char.isWhitespace).reverse)

/-- JS `a || b` on an optional string: `undefined`/`null` and the empty
string are falsy. -/
def jsOr (a b : Option String) : Option String :=
  match a with
  | some s => if s = "" then b else some s
  | none => b

/-- JS `a || b` where the fallback is a plain string. -/
def jsOrStr (a : Option String) (b : String) : String :=
  match a with
  | some s => if s = "" then b else s
  | none => b

/-- `STAGE_LABELS` from `GardenContext.js`. -/
def STAGE_LABELS (s : String) : Option String :=
  if s = "planted" then some "🌰 Marked as Planted"
  else if s = "sprouted" then some "🌱 Marked as Sprouted"
  else if s = "growing" then some "🌿 Marked as Growing"
  else if s = "harvesting" then some "🥬 Marked as Harvesting"
  else if s = "done" then some "✅ Marked as Done"
  else none

/-- The persistence calls a store mutation dispatches (the `db.js`
functions invoked in the background, with their arguments).  The
composite `createAreaAndAddPlant` dispatches one transaction holding
both of its inserts. -/
inductive DbCall where
  | insertArea (id name emoji createdAt : String)
  | updateArea (id name : String) (emoji : Option String)
  | deleteArea (id : String)
  | insertPlant (id areaId : String) (seedId seedTitle seedCategory seedImage : Option String)
      (plantedDate : String) (stage : Option String)
  | updatePlantStage (plantId : String) (stage : Option String)
  | deletePlant (id : String)
  | insertJournalEntry (id plantId date text ty : String)
  | deleteJournalEntry (id : String)
  | deleteLastStageEntry (plantId : String)
  | txInsertAreaAndPlant (areaId name emoji createdAt : String)
      (plantId : String) (seedId seedTitle seedCategory seedImage : Option String)
      (plantedDate : String) (stage : Option String)
  | insertCustomSeed (id : String)
deriving DecidableEq

namespace Ctx

/-- `createArea(name, emoji)`: appends a fresh area (trimmed name, empty
plant list) and dispatches `insertArea`.  `newId`/`createdAt` stand for
`makeId()` / the ISO date slice. -/
def createArea (newId createdAt : String) (name emoji : String) (prev : List Area) :
    List Area × List DbCall :=
  let area : Area := ⟨newId, jsTrim name, emoji, createdAt, []⟩
  (prev ++ [area], [DbCall.insertArea newId (jsTrim name) emoji createdAt])

/-- `renameArea(areaId, newName, newEmoji)`: in memory the matching area
gets the trimmed name and `newEmoji ?? a.emoji`; the dispatched
`updateArea` receives the raw `newEmoji` argument (which is `undefined`,
i.e. `none`, when the caller omits it). -/
def renameArea (areaId newName : String) (newEmoji : Option String) (prev : List Area) :
    List Area × List DbCall :=
  (prev.map fun a =>
      if a.id = areaId then { a with name := jsTrim newName, emoji := newEmoji.getD a.emoji }
      else a,
   [DbCall.updateArea areaId (jsTrim newName) newEmoji])

/-- `deleteArea(areaId)`. -/
def deleteArea (areaId : String) (prev : List Area) : List Area × List DbCall :=
  (prev.filter fun a => a.id ≠ areaId, [DbCall.deleteArea areaId])

/-- The plant record built by `addPlantToArea` / `createAreaAndAddPlant`
from a catalog item (`seed.title || seed.name` handles both shapes). -/
def mkPlantRecord (newId plantedDate : String) (seed : SeedInput) : Plant :=
  { id := newId
    seedId := seed.id
    seedTitle := jsOr seed.title seed.name
    seedCategory := seed.category
    seedImage := seed.image_url
    plantedDate := plantedDate
    stage := none
    journal := [] }

/-- `addPlantToArea(areaId, seed)`. -/
def addPlantToArea (newId plantedDate : String) (areaId : String) (seed : SeedInput)
    (prev : List Area) : List Area × List DbCall :=
  let p := mkPlantRecord newId plantedDate seed
  (prev.map fun a => if a.id = areaId then { a with plants := a.plants ++ [p] } else a,
   [DbCall.insertPlant p.id areaId p.seedId p.seedTitle p.seedCategory p.seedImage
      p.plantedDate p.stage])

/-- `createAreaAndAddPlant(name, emoji, seed)`: ONE `setAreas` call
appends the new area already holding its plant; persistence is one
transaction with both inserts. -/
def createAreaAndAddPlant (areaId plantId createdAt plantedDate : String)
    (name emoji : String) (seed : SeedInput) (prev : List Area) :
    List Area × List DbCall :=
  let area : Area := ⟨areaId, jsTrim name, emoji, createdAt, []⟩
  let p := mkPlantRecord plantId plantedDate seed
  (prev ++ [{ area with plants := [p] }],
   [DbCall.txInsertAreaAndPlant areaId area.name area.emoji area.createdAt
      p.id p.seedId p.seedTitle p.seedCategory p.seedImage p.plantedDate p.stage])

/-- `updatePlantStage(areaId, plantId, stage)`: sets the plant's stage,
appends one `stage`-typed entry (`STAGE_LABELS[stage] || stage`; the
labels are non-empty strings, so `||` is `getD`), and dispatches the
stage update plus the journal insert. -/
def updatePlantStage (entryId todayStr : String) (areaId plantId stage : String)
    (prev : List Area) : List Area × List DbCall :=
  let entry : JEntry := ⟨entryId, todayStr, (STAGE_LABELS stage).getD stage, "stage"⟩
  (prev.map fun a =>
      if a.id = areaId then
        { a with plants := a.plants.map fun p =>
            if p.id = plantId then
              { p with stage := some stage, journal := p.journal ++ [entry] }
            else p }
      else a,
   [DbCall.updatePlantStage plantId (some stage),
    DbCall.insertJournalEntry entryId plantId todayStr entry.text "stage"])

/-- The journal trimming performed by `rollbackPlantStage`: index the
entries, keep the indices of `stage`-typed ones, `pop` the last, and
filter that index out (unchanged when there is no `stage` entry). -/
def trimLastStage (journal : List JEntry) : List JEntry :=
  match ((journal.enum.filter fun q => q.2.type = "stage").getLast?).map (·.1) with
  | none => journal
  | some k => (journal.enum.filter fun q => q.1 ≠ k).map (·.2)

/-- `rollbackPlantStage(areaId, plantId, stage)`: sets the plant's stage
to the given (possibly null) value, removes the most recent `stage`
entry, and dispatches the stage update plus `deleteLastStageEntry`. -/
def rollbackPlantStage (areaId plantId : String) (stage : Option String)
    (prev : List Area) : List Area × List DbCall :=
  (prev.map fun a =>
      if a.id = areaId then
        { a with plants := a.plants.map fun p =>
            if p.id = plantId then { p with stage := stage, journal := trimLastStage p.journal }
            else p }
      else a,
   [DbCall.updatePlantStage plantId stage, DbCall.deleteLastStageEntry plantId])

/-- `addJournalEntry(areaId, plantId, text)`: appends a `note` entry
with trimmed text and dispatches the insert (no emptiness check). -/
def addJournalEntry (entryId todayStr : String) (areaId plantId text : String)
    (prev : List Area) : List Area × List DbCall :=
  let entry : JEntry := ⟨entryId, todayStr, jsTrim text, "note"⟩
  (prev.map fun a =>
      if a.id = areaId then
        { a with plants := a.plants.map fun p =>
            if p.id = plantId then { p with journal := p.journal ++ [entry] } else p }
      else a,
   [DbCall.insertJournalEntry entryId plantId todayStr (jsTrim text) "note"])

/-- `removeJournalEntry(areaId, plantId, entryId)`. -/
def removeJournalEntry (areaId plantId entryId : String) (prev : List Area) :
    List Area × List DbCall :=
  (prev.map fun a =>
      if a.id = areaId then
        { a with plants := a.plants.map fun p =>
            if p.id = plantId then
              { p with journal := p.journal.filter fun e => e.id ≠ entryId }
            else p }
      else a,
   [DbCall.deleteJournalEntry entryId])

/-- `removePlantFromArea(areaId, plantId)`. -/
def removePlantFromArea (areaId plantId : String) (prev : List Area) :
    List Area × List DbCall :=
  (prev.map fun a =>
      if a.id = areaId then { a with plants := a.plants.filter fun p => p.id ≠ plantId }
      else a,
   [DbCall.deletePlant plantId])

/-- `addCustomPlantToArea(areaId, name, category)`: freehand plant with
no catalog linkage; `category || 'Other'`. -/
def addCustomPlantToArea (newId plantedDate : String) (areaId name : String)
    (category : Option String) (prev : List Area) : List Area × List DbCall :=
  let p : Plant :=
    { id := newId, seedId := none, seedTitle := some (jsTrim name)
      seedCategory := some (jsOrStr category "Other"), seedImage := none
      plantedDate := plantedDate, stage := none, journal := [] }
  (prev.map fun a => if a.id = areaId then { a with plants := a.plants ++ [p] } else a,
   [DbCall.insertPlant p.id areaId p.seedId p.seedTitle p.seedCategory p.seedImage
      p.plantedDate p.stage])

end Ctx

/-! ## Durable store (`src/database/db.js`)

Rows mirror the SQLite schema of `initDatabase`; each table is a list in
`rowid` (insertion) order.  `TEXT` columns declared `NOT NULL` are
`String`, nullable ones are `Option String`. -/

/-- A row of `areas` (`id`, `name`, `emoji`, `created_at`, all NOT NULL;
`emoji` has a NOT NULL constraint with default `'🪴'`). -/
structure AreaRow where
  id : String
  name : String
  emoji : String
  created_at : String
deriving DecidableEq, Inhabited

/-- A row of `plants` (`area_id` references `areas(id)` ON DELETE CASCADE). -/
structure PlantRow where
  id : String
  area_id : String
  seed_id : Option String
  seed_title : Option String
  seed_category : Option String
  seed_image : Option String
  planted_date : String
  stage : Option String
deriving DecidableEq, Inhabited

/-- A row of `journal_entries` (`plant_id` references `plants(id)` ON
DELETE CASCADE). -/
structure JournalRow where
  id : String
  plant_id : String
  date : String
  text : String
  type : String
deriving DecidableEq, Inhabited

/-- The durable database: the three garden tables, each in insertion
(`rowid`) order.  (`custom_seeds` and `kv_store` are modelled separately
where needed.) -/
structure DBState where
  areas : List AreaRow
  plants : List PlantRow
  journal : List JournalRow
deriving DecidableEq, Inhabited

namespace Db

/-- `insertArea(id, name, emoji, createdAt)`. -/
def insertArea (db : DBState) (id name emoji createdAt : String) : DBState :=
  { db with areas := db.areas ++ [⟨id, name, emoji, createdAt⟩] }

/-- `updateArea(id, name, emoji)`.  The JS caller passes the raw
`newEmoji` argument; when it is omitted (`undefined`) the driver binds
SQL NULL, and the `emoji TEXT NOT NULL` constraint rejects the whole
UPDATE statement — modelled as `none` (statement failed, no row
changed). -/
def updateArea (db : DBState) (id name : String) (emoji : Option String) :
    Option DBState :=
  match emoji with
  | none => none
  | some e =>
      some { db with areas := db.areas.map fun a =>
              if a.id = id then { a with name := name, emoji := e } else a }

/-- `deleteArea(id)` with the schema's ON DELETE CASCADE (enabled by
`PRAGMA foreign_keys = ON`): the area's plant rows and those plants'
journal rows go too. -/
def deleteArea (db : DBState) (id : String) : DBState :=
  let deadPlants := (db.plants.filter fun p => p.area_id = id).map (·.id)
  { areas := db.areas.filter (fun a => a.id ≠ id),
    plants := db.plants.filter (fun p => p.area_id ≠ id),
    journal := db.journal.filter (fun e => e.plant_id ∉ deadPlants) }

/-- `insertPlant(...)` (absent optional values arrive as null). -/
def insertPlant (db : DBState) (id areaId : String)
    (seedId seedTitle seedCategory seedImage : Option String)
    (plantedDate : String) (stage : Option String) : DBState :=
  { db with plants :=
      db.plants ++ [⟨id, areaId, seedId, seedTitle, seedCategory, seedImage, plantedDate, stage⟩] }

/-- `updatePlantStage(plantId, stage)`. -/
def updatePlantStage (db : DBState) (plantId : String) (stage : Option String) : DBState :=
  { db with plants := db.plants.map fun p =>
      if p.id = plantId then { p with stage := stage } else p }

/-- `deletePlant(id)` with cascade on its journal rows. -/
def deletePlant (db : DBState) (id : String) : DBState :=
  { db with plants := db.plants.filter (fun p => p.id ≠ id),
            journal := db.journal.filter (fun e => e.plant_id ≠ id) }

/-- `insertJournalEntry(id, plantId, date, text, type)`. -/
def insertJournalEntry (db : DBState) (id plantId date text ty : String) : DBState :=
  { db with journal := db.journal ++ [⟨id, plantId, date, text, ty⟩] }

/-- `deleteJournalEntry(id)`. -/
def deleteJournalEntry (db : DBState) (id : String) : DBState :=
  { db with journal := db.journal.filter fun e => e.id ≠ id }

/-- `deleteLastStageEntry(plantId)`: deletes the row with the greatest
`rowid` among this plant's `type = 'stage'` entries (the last such
element of the list), if any. -/
def deleteLastStageEntry (db : DBState) (plantId : String) : DBState :=
  match (db.journal.filter fun e => e.plant_id = plantId ∧ e.type = "stage").getLast? with
  | none => db
  | some victim => { db with journal := db.journal.filter fun e => e.id ≠ victim.id }

/-- The in-memory shape of one loaded journal row. -/
def loadEntryRow (e : JournalRow) : JEntry := ⟨e.id, e.date, e.text, e.type⟩

/-- The in-memory shape of one loaded plant row: snake_case columns
renamed, journal fetched by `WHERE plant_id = ?` in `rowid` order. -/
def loadPlantRow (db : DBState) (p : PlantRow) : Plant :=
  { id := p.id, seedId := p.seed_id, seedTitle := p.seed_title
    seedCategory := p.seed_category, seedImage := p.seed_image
    plantedDate := p.planted_date, stage := p.stage
    journal := (db.journal.filter fun e => e.plant_id = p.id).map loadEntryRow }

/-- The in-memory shape of one loaded area row: plants fetched by
`WHERE area_id = ?` in `rowid` order. -/
def loadAreaRow (db : DBState) (a : AreaRow) : Area :=
  { id := a.id, name := a.name, emoji := a.emoji, createdAt := a.created_at
    plants := (db.plants.filter fun p => p.area_id = a.id).map (loadPlantRow db) }

/-- `loadAllAreas()`: areas in `rowid` order, each with its plants and
their journals nested (three per-parent fetches, no flat join). -/
def loadAllAreas (db : DBState) : List Area :=
  db.areas.map (loadAreaRow db)

/-- One SQL statement inside a transaction: it either produces the next
database state or fails (`none`). -/
def runStmts (db : DBState) : List (DBState → Option DBState) → Option DBState
  | [] => some db
  | s :: rest => (s db).bind fun db' => runStmts db' rest

/-- `db.withTransactionAsync(work)`: if every statement succeeds the
final state commits; if any fails SQLite rolls the whole transaction
back and the database is unchanged. -/
def withTransaction (db : DBState) (stmts : List (DBState → Option DBState)) : DBState :=
  (runStmts db stmts).getD db

/-- The durable side of `createAreaAndAddPlant`: one transaction holding
`insertArea` then `insertPlant`.  `failArea` / `failPlant` inject a
simulated write failure into the respective statement. -/
def createAreaAndAddPlantTx (db : DBState) (failArea failPlant : Bool)
    (areaId name emoji createdAt : String) (plantId : String)
    (seedId seedTitle seedCategory seedImage : Option String)
    (plantedDate : String) (stage : Option String) : DBState :=
  withTransaction db
    [fun d => if failArea then none else some (insertArea d areaId name emoji createdAt),
     fun d => if failPlant then none else
       some (insertPlant d plantId areaId seedId seedTitle seedCategory seedImage
               plantedDate stage)]

end Db

/-- First area with the given id, as the UI's `areas.find` sees it. -/
def findArea (st : List Area) (areaId : String) : Option Area :=
  st.find? fun a => a.id = areaId

/-- First plant with the given id inside the first matching area. -/
def findPlant (st : List Area) (areaId plantId : String) : Option Plant :=
  (findArea st areaId).bind fun a => a.plants.find? fun p => p.id = plantId

/-- The background persistence effect of `renameArea`: the dispatched
`updateArea`, whose rejection is caught (`.catch(console.error)`) and
leaves the durable rows untouched. -/
def renameAreaPersist (db : DBState) (areaId newName : String) (newEmoji : Option String) :
    DBState :=
  (Db.updateArea db areaId (jsTrim newName) newEmoji).getD db

/-! ## Screen-level handlers (`GardenAreaScreen` in the screens bundle,
`MyGardenScreen.js`) -/

namespace UI

/-- One element of the `STAGES` constant. -/
structure StageInfo where
  key : String
  label : String
  emoji : String
deriving DecidableEq, Inhabited

/-- `STAGES`: the ordered list of growth stages. -/
def STAGES : List StageInfo :=
  [⟨"planted", "Planted", "🌰"⟩,
   ⟨"sprouted", "Sprouted", "🌱"⟩,
   ⟨"growing", "Growing", "🌿"⟩,
   ⟨"harvesting", "Harvesting", "🥬"⟩,
   ⟨"done", "Done", "✅"⟩]

/-- `STAGES.findIndex((s) => s.key === plant.stage)`: JS `findIndex`
yields `-1` when absent (in particular when the stage is null). -/
def stageFindIndex (stage : Option String) : Int :=
  match STAGES.findIdx? (fun s => some s.key = stage) with
  | some i => (i : Int)
  | none => -1

/-- `advanceStage(plant)`: advance to `STAGES[currentIndex + 1]` unless
already at the last stage (then nothing is called). -/
def advanceStage (entryId todayStr areaId : String) (plant : Plant) (st : List Area) :
    List Area × List DbCall :=
  if stageFindIndex plant.stage < (STAGES.length : Int) - 1 then
    Ctx.updatePlantStage entryId todayStr areaId plant.id
      ((STAGES.getD (stageFindIndex plant.stage + 1).toNat default).key) st
  else (st, [])

/-- `goBackStage(plant)`: one stage back, to null from `planted`, and
nothing at all when the stage is already null (`findIndex` gave `-1`). -/
def goBackStage (areaId : String) (plant : Plant) (st : List Area) :
    List Area × List DbCall :=
  if stageFindIndex plant.stage > 0 then
    Ctx.rollbackPlantStage areaId plant.id
      (some ((STAGES.getD (stageFindIndex plant.stage - 1).toNat default).key)) st
  else if stageFindIndex plant.stage = 0 then
    Ctx.rollbackPlantStage areaId plant.id none st
  else (st, [])

/-- One advance tap: the screen reads the plant from the current state
and calls `advanceStage` on it. -/
def uiAdvance (entryId todayStr areaId plantId : String) (st : List Area) : List Area :=
  match findPlant st areaId plantId with
  | some p => (advanceStage entryId todayStr areaId p st).1
  | none => st

/-- One go-back tap. -/
def uiGoBack (areaId plantId : String) (st : List Area) : List Area :=
  match findPlant st areaId plantId with
  | some p => (goBackStage areaId p st).1
  | none => st

/-- `n` successive advance taps (`ids`/`dates` supply the fresh
`makeId()` / `today()` values of each tap). -/
def uiAdvanceIter (ids dates : Nat → String) (areaId plantId : String) :
    Nat → List Area → List Area
  | 0, st => st
  | n + 1, st => uiAdvanceIter ids dates areaId plantId n (uiAdvance (ids n) (dates n) areaId plantId st)

/-- `n` successive go-back taps. -/
def uiGoBackIter (areaId plantId : String) : Nat → List Area → List Area
  | 0, st => st
  | n + 1, st => uiGoBackIter areaId plantId n (uiGoBack areaId plantId st)

/-- The stage value after `k` net forward transitions: null, then the
`STAGES` keys in order. -/
def stageAt (k : Nat) : Option String :=
  if k = 0 then none else some ((STAGES.getD (k - 1) default).key)

/-- `submitNote(plantId)` from `GardenAreaScreen`: trims the input and
returns without calling the store when it is empty. -/
def submitNote (entryId todayStr areaId plantId : String) (input : String)
    (st : List Area) : List Area × List DbCall :=
  let text := jsTrim input
  if text = "" then (st, [])
  else Ctx.addJournalEntry entryId todayStr areaId plantId text st

/-- `handleCreate()` from `MyGardenScreen`: returns without calling the
store when the name trims to empty. -/
def handleCreate (newAreaId createdAt : String) (newName newEmoji : String)
    (st : List Area) : List Area × List DbCall :=
  if jsTrim newName = "" then (st, [])
  else Ctx.createArea newAreaId createdAt newName newEmoji st

end UI

/-! ## Sequences of stage mutations (for the journal/stage invariant) -/

/-- One store-level stage call on a fixed plant: an advance
(`updatePlantStage`) or a rollback (`rollbackPlantStage`). -/
inductive StageOp where
  | adv (entryId todayStr stage : String)
  | rb (stage : Option String)
deriving DecidableEq

/-- Apply one stage call to the store state. -/
def applyStageOp (areaId plantId : String) (st : List Area) : StageOp → List Area
  | .adv e t s => (Ctx.updatePlantStage e t areaId plantId s st).1
  | .rb s => (Ctx.rollbackPlantStage areaId plantId s st).1

/-- Apply a sequence of stage calls, first element first. -/
def applyStageOps (areaId plantId : String) (ops : List StageOp) (st : List Area) :
    List Area :=
  ops.foldl (applyStageOp areaId plantId) st

/-- Is the call an advance? -/
def isAdvOp : StageOp → Bool
  | .adv .. => true
  | .rb _ => false

/-- Number of advance calls in a sequence. -/
def advCount (ops : List StageOp) : Nat := ops.countP isAdvOp

/-- Number of rollback calls in a sequence. -/
def rbCount (ops : List StageOp) : Nat := ops.countP (fun op => !isAdvOp op)

/-- Number of `stage`-typed entries in a journal. -/
def stageCount (j : List JEntry) : Nat := j.countP (fun e => e.type = "stage")

/-- The `note`-typed entries of a journal, in order. -/
def noteEntries (j : List JEntry) : List JEntry := j.filter (fun e => e.type = "note")

/-! ## Writing a nested garden through the insert functions (round trip) -/

/-- The row that `insertArea` writes for an in-memory area. -/
def areaRowOf (a : Area) : AreaRow := ⟨a.id, a.name, a.emoji, a.createdAt⟩

/-- The row that `insertPlant` writes for an in-memory plant. -/
def plantRowOf (areaId : String) (p : Plant) : PlantRow :=
  ⟨p.id, areaId, p.seedId, p.seedTitle, p.seedCategory, p.seedImage, p.plantedDate, p.stage⟩

/-- The row that `insertJournalEntry` writes for an in-memory entry. -/
def entryRowOf (plantId : String) (e : JEntry) : JournalRow :=
  ⟨e.id, plantId, e.date, e.text, e.type⟩

/-- The database tables that writing a nested garden produces: each
table is the in-order concatenation of the rows of the nesting. -/
def gardenDB (g : List Area) : DBState :=
  { areas := g.map areaRowOf,
    plants := (g.map fun a => a.plants.map (plantRowOf a.id)).flatten,
    journal := (g.map fun a =>
      (a.plants.map fun p => p.journal.map (entryRowOf p.id)).flatten).flatten }

/-- Insert one plant row and then its journal rows, in journal order. -/
def writePlant (db : DBState) (areaId : String) (p : Plant) : DBState :=
  p.journal.foldl (fun d e => Db.insertJournalEntry d e.id p.id e.date e.text e.type)
    (Db.insertPlant db p.id areaId p.seedId p.seedTitle p.seedCategory p.seedImage
      p.plantedDate p.stage)

/-- Insert one area row and then its plants, in order. -/
def writeArea (db : DBState) (a : Area) : DBState :=
  a.plants.foldl (fun d p => writePlant d a.id p) (Db.insertArea db a.id a.name a.emoji a.createdAt)

/-- Write a whole nested garden into an empty database. -/
def writeGarden (g : List Area) : DBState :=
  g.foldl writeArea ⟨[], [], []⟩

/-! ## Custom catalog entries and the JSON text encoding

`insertCustomSeed` serialises `planting_seasons` with `JSON.stringify`
and `loadAllCustomSeeds` parses it back with `JSON.parse`; booleans are
stored as 0/1 `INTEGER`s.  `JSON.stringify` / `JSON.parse` (for an array
of strings) are modelled concretely below, with the quoting rules of the
ECMA-262 QuoteJSONString operation. -/

namespace Json

/-- Lower-case hex digit. -/
def hexDigit (n : Nat) : Char :=
  if n < 10 then Char.ofNat ('0'.toNat + n) else Char.ofNat ('a'.toNat + n - 10)

/-- The escape of one character inside a JSON string literal. -/
def escChar (c : Char) : List Char :=
  if c = '"' then ['\\', '"']
  else if c = '\\' then ['\\', '\\']
  else if c = Char.ofNat 8 then ['\\', 'b']
  else if c = Char.ofNat 9 then ['\\', 't']
  else if c = Char.ofNat 10 then ['\\', 'n']
  else if c = Char.ofNat 12 then ['\\', 'f']
  else if c = Char.ofNat 13 then ['\\', 'r']
  else if c.toNat < 32 then ['\\', 'u', '0', '0', hexDigit (c.toNat / 16), hexDigit (c.toNat % 16)]
  else [c]

/-- `JSON.stringify` of one string (as a character list). -/
def quoteStr (s : List Char) : List Char :=
  '"' :: ((s.map escChar).flatten ++ ['"'])

/-- `JSON.stringify` of an array of strings: `["a","b"]`, the items
comma-separated with no spacing. -/
def stringifyList (l : List String) : String :=
  match l with
  | [] => String.mk ['[', ']']
  | s :: t =>
    String.mk ('[' :: (quoteStr s.data ++
      ((t.map fun y => ',' :: quoteStr y.data).flatten ++ [']'])))

/-- Hex digit value. -/
def parseHex (c : Char) : Option Nat :=
  if '0' ≤ c ∧ c ≤ '9' then some (c.toNat - '0'.toNat)
  else if 'a' ≤ c ∧ c ≤ 'f' then some (c.toNat - 'a'.toNat + 10)
  else if 'A' ≤ c ∧ c ≤ 'F' then some (c.toNat - 'A'.toNat + 10)
  else none

/-- Parse the body of a JSON string literal up to its closing quote,
returning the decoded characters and the rest of the input. -/
def parseStrBody : List Char → Option (List Char × List Char)
  | [] => none
  | c :: rest =>
    if c = '"' then some ([], rest)
    else if c = '\\' then
      match rest with
      | [] => none
      | e :: r =>
        if e = '"' then (parseStrBody r).map fun q => ('"' :: q.1, q.2)
        else if e = '\\' then (parseStrBody r).map fun q => ('\\' :: q.1, q.2)
        else if e = '/' then (parseStrBody r).map fun q => ('/' :: q.1, q.2)
        else if e = 'b' then (parseStrBody r).map fun q => (Char.ofNat 8 :: q.1, q.2)
        else if e = 't' then (parseStrBody r).map fun q => (Char.ofNat 9 :: q.1, q.2)
        else if e = 'n' then (parseStrBody r).map fun q => (Char.ofNat 10 :: q.1, q.2)
        else if e = 'f' then (parseStrBody r).map fun q => (Char.ofNat 12 :: q.1, q.2)
        else if e = 'r' then (parseStrBody r).map fun q => (Char.ofNat 13 :: q.1, q.2)
        else if e = 'u' then
          match r with
          | a :: b :: c' :: d :: r' =>
            match parseHex a, parseHex b, parseHex c', parseHex d with
            | some x, some y, some z, some w =>
              (parseStrBody r').map fun q => (Char.ofNat (((x * 16 + y) * 16 + z) * 16 + w) :: q.1, q.2)
            | _, _, _, _ => none
          | _ => none
        else none
    else if c.toNat < 32 then none
    else (parseStrBody rest).map fun q => (c :: q.1, q.2)

/-- Parse one JSON string literal (expects the opening quote). -/
def parseStr : List Char → Option (List Char × List Char)
  | '"' :: rest => parseStrBody rest
  | _ => none

/-- Parse the tail of a JSON array after one complete item: a `,` and
another string, repeatedly, until `]`.  Fuelled (each step consumes at
least one character, so input length is always enough fuel). -/
def parseListBody : Nat → List Char → Option (List (List Char) × List Char)
  | _, [] => none
  | fuel, c :: r =>
    if c = ']' then some ([], r)
    else if c = ',' then
      match fuel with
      | 0 => none
      | f + 1 =>
        (parseStr r).bind fun q =>
          (parseListBody f q.2).map fun q' => (q.1 :: q'.1, q'.2)
    else none

/-- Parse a JSON array of strings. -/
def parseList (cs : List Char) : Option (List String × List Char) :=
  match cs with
  | '[' :: r =>
    match r with
    | ']' :: r' => some ([], r')
    | _ =>
      (parseStr r).bind fun q =>
        (parseListBody q.2.length q.2).map fun q' =>
          ((q.1 :: q'.1).map String.mk, q'.2)
  | _ => none

end Json

/-- A custom catalog entry as held in memory (the object built by
`addCustomSeedToCatalog` and returned by `loadAllCustomSeeds`). -/
structure CustomSeed where
  id : String
  title : String
  category : String
  scientific_name : Option String
  description : Option String
  image_url : Option String
  url : Option String
  isCustom : Bool
  planting_seasons : List String
  best_months : Option String
  sun_requirements : Option String
  watering : Option String
  frost_tolerance : Option String
  difficulty : Option String
  plant_life : Option String
  suitable_for_containers : Bool
  requires_trellis : Bool
  days_to_germination : Option String
  days_to_harvest : Option String
  sowing_depth : Option String
  spacing : Option String
  companion_plants : Option String
  plant_height : Option String
  drought_tolerant : Bool
deriving DecidableEq, Inhabited

/-- A row of the `custom_seeds` table (booleans as 0/1 `INTEGER`s,
`planting_seasons` as JSON text). -/
structure SeedRow where
  id : String
  title : String
  category : String
  scientific_name : Option String
  description : Option String
  image_url : Option String
  planting_seasons : Option String
  best_months : Option String
  sun_requirements : Option String
  watering : Option String
  frost_tolerance : Option String
  difficulty : Option String
  plant_life : Option String
  suitable_for_containers : Nat
  requires_trellis : Nat
  days_to_germination : Option String
  days_to_harvest : Option String
  sowing_depth : Option String
  spacing : Option String
  companion_plants : Option String
  plant_height : Option String
  drought_tolerant : Nat
  is_custom : Nat
deriving DecidableEq, Inhabited

namespace Db

/-- `insertCustomSeed(seed)`: arrays serialised to JSON text (an array —
even an empty one — is truthy, so the `seed.planting_seasons ? ... :
null` guard always stringifies), booleans to 0/1, `is_custom` always 1. -/
def seedRowOf (seed : CustomSeed) : SeedRow :=
  { id := seed.id
    title := seed.title
    category := seed.category
    scientific_name := seed.scientific_name
    description := seed.description
    image_url := seed.image_url
    planting_seasons := some (Json.stringifyList seed.planting_seasons)
    best_months := seed.best_months
    sun_requirements := seed.sun_requirements
    watering := seed.watering
    frost_tolerance := seed.frost_tolerance
    difficulty := seed.difficulty
    plant_life := seed.plant_life
    suitable_for_containers := if seed.suitable_for_containers then 1 else 0
    requires_trellis := if seed.requires_trellis then 1 else 0
    days_to_germination := seed.days_to_germination
    days_to_harvest := seed.days_to_harvest
    sowing_depth := seed.sowing_depth
    spacing := seed.spacing
    companion_plants := seed.companion_plants
    plant_height := seed.plant_height
    drought_tolerant := if seed.drought_tolerant then 1 else 0
    is_custom := 1 }

def insertCustomSeed (tbl : List SeedRow) (seed : CustomSeed) : List SeedRow :=
  tbl ++ [seedRowOf seed]

/-- `loadAllCustomSeeds()`: rows in insertion order, `=== 1` turning 0/1
back into booleans, `row.planting_seasons ? JSON.parse(...) : []` (the
empty string is falsy).  A `JSON.parse` failure cannot arise for rows
written by `insertCustomSeed`. -/
def loadSeedRow (r : SeedRow) : CustomSeed :=
  { id := r.id
    title := r.title
    category := r.category
    scientific_name := r.scientific_name
    description := r.description
    image_url := r.image_url
    url := none
    isCustom := r.is_custom = 1
    planting_seasons :=
      match r.planting_seasons with
      | none => []
      | some s =>
        if s = "" then []
        else match Json.parseList s.data with
             | some (items, []) => items
             | _ => []
    best_months := r.best_months
    sun_requirements := r.sun_requirements
    watering := r.watering
    frost_tolerance := r.frost_tolerance
    difficulty := r.difficulty
    plant_life := r.plant_life
    suitable_for_containers := r.suitable_for_containers = 1
    requires_trellis := r.requires_trellis = 1
    days_to_germination := r.days_to_germination
    days_to_harvest := r.days_to_harvest
    sowing_depth := r.sowing_depth
    spacing := r.spacing
    companion_plants := r.companion_plants
    plant_height := r.plant_height
    drought_tolerant := r.drought_tolerant = 1 }

def loadAllCustomSeeds (tbl : List SeedRow) : List CustomSeed :=
  tbl.map loadSeedRow

end Db

/-! ## Concrete sample data (used to evaluate the theorems) -/

/-- A plant with no stage and an empty journal. -/
def samplePlant : Plant :=
  ⟨"p1", some "c1", some "Lettuce", some "Vegetable", none, "2025-01-01", none, []⟩

/-- A plant at stage `planted` with one stage entry and one note. -/
def samplePlant2 : Plant :=
  ⟨"p2", none, some "Basil", some "Herb", none, "2025-01-02", some "planted",
   [⟨"e1", "2 Jan 2025", "🌰 Marked as Planted", "stage"⟩,
    ⟨"e2", "2 Jan 2025", "looking good", "note"⟩]⟩

/-- An area holding the two sample plants. -/
def sampleArea : Area := ⟨"a1", "Bed One", "🪴", "2025-01-01", [samplePlant, samplePlant2]⟩

/-- A second, empty area. -/
def sampleArea2 : Area := ⟨"a2", "Bed Two", "🌻", "2025-01-02", []⟩

/-- A two-area sample state. -/
def sampleState : List Area := [sampleArea, sampleArea2]

/-! ## Helper lemmas -/

theorem find?_map_update {α} (l : List α) (P : α → Prop) [DecidablePred P] (g : α → α)
    (hg : ∀ a, P (g a) ↔ P a) :
    (l.map fun a => if P a then g a else a).find? (fun a => P a) =
      (l.find? (fun a => P a)).map g := by
  induction l with
  | nil => rfl
  | cons a t ih =>
    by_cases h : P a
    · simp [List.find?, h, (hg a).mpr h]
    · simp only [List.map_cons, if_neg h, List.find?]
      have : decide (P a) = false := decide_eq_false h
      simp [this, ih]

theorem findArea_update (st : List Area) (areaId : String) (g : Area → Area)
    (hg : ∀ a, (g a).id = a.id) :
    findArea (st.map fun a => if a.id = areaId then g a else a) areaId =
      (findArea st areaId).map g := by
  unfold findArea
  exact find?_map_update st (fun a => a.id = areaId) g
    (fun a => show (g a).id = areaId ↔ a.id = areaId by rw [hg a])

theorem findPlant_update (st : List Area) (areaId plantId : String) (g : Plant → Plant)
    (hg : ∀ p, (g p).id = p.id) :
    findPlant
      (st.map fun a =>
        if a.id = areaId then
          { a with plants := a.plants.map fun p => if p.id = plantId then g p else p }
        else a)
      areaId plantId = (findPlant st areaId plantId).map g := by
  unfold findPlant
  rw [findArea_update st areaId
    (fun a => { a with plants := a.plants.map fun p => if p.id = plantId then g p else p })
    (fun a => rfl)]
  cases findArea st areaId with
  | none => rfl
  | some a =>
    exact find?_map_update a.plants (fun p => p.id = plantId) g
      (fun p => show (g p).id = plantId ↔ p.id = plantId by rw [hg p])

theorem trimLastStage_match_none {l : List JEntry}
    (h : (l.enum.filter fun q => decide (q.2.type = "stage")).getLast? = none) :
    Ctx.trimLastStage l = l := by
  unfold Ctx.trimLastStage
  rw [h]
  rfl

theorem trimLastStage_match_some {l : List JEntry} {q : Nat × JEntry}
    (h : (l.enum.filter fun q => decide (q.2.type = "stage")).getLast? = some q) :
    Ctx.trimLastStage l = (l.enum.filter fun p => decide (p.1 ≠ q.1)).map (·.2) := by
  unfold Ctx.trimLastStage
  rw [h]
  rfl

theorem trimLastStage_eq (l : List JEntry) :
    Ctx.trimLastStage l = (l.reverse.eraseP (fun e => e.type = "stage")).reverse := by
  induction l using List.reverseRecOn with
  | nil => rfl
  | append_singleton l e ih =>
    have henum : (l ++ [e]).enum = l.enum ++ [(l.length, e)] := by
      rw [List.enum_append, List.enumFrom_singleton]
    by_cases hstage : e.type = "stage"
    · have hlast : ((l ++ [e]).enum.filter fun q => decide (q.2.type = "stage")).getLast? =
          some (l.length, e) := by
        rw [henum, List.filter_append]
        have h1 : List.filter (fun q => decide (q.2.type = "stage")) [(l.length, e)] =
            [(l.length, e)] := by
          simp [List.filter_cons, hstage]
        rw [h1, List.getLast?_concat]
      rw [trimLastStage_match_some hlast]
      have h2 : List.filter (fun q => decide (q.1 ≠ l.length)) [(l.length, e)] = [] := by
        simp [List.filter_cons]
      have h3 : List.filter (fun q => decide (q.1 ≠ l.length)) l.enum = l.enum := by
        rw [List.filter_eq_self]
        intro q hq
        have := List.fst_lt_of_mem_enum hq
        simp only [decide_eq_true_eq]
        omega
      rw [henum, List.filter_append, h2, h3, List.append_nil, List.enum_map_snd,
        List.reverse_append, List.reverse_singleton, List.singleton_append,
        List.eraseP_cons_of_pos (by simpa using hstage), List.reverse_reverse]
    · have hfilter : ((l ++ [e]).enum.filter fun q => decide (q.2.type = "stage")) =
          l.enum.filter fun q => decide (q.2.type = "stage") := by
        rw [henum, List.filter_append]
        simp [List.filter_cons, hstage]
      have hrev : (l ++ [e]).reverse.eraseP (fun e => decide (e.type = "stage")) =
          e :: l.reverse.eraseP (fun e => decide (e.type = "stage")) := by
        rw [List.reverse_append, List.reverse_singleton, List.singleton_append,
          List.eraseP_cons_of_neg (by simpa using hstage)]
      cases hlast : (l.enum.filter fun q => decide (q.2.type = "stage")).getLast? with
      | none =>
        have hempty : (l.enum.filter fun q => decide (q.2.type = "stage")) = [] := by
          rwa [← List.getLast?_eq_none_iff]
        have hnostage : ∀ a ∈ l, ¬(a.type = "stage") := by
          intro a ha
          obtain ⟨i, hi⟩ := List.getElem?_of_mem ha
          have hmem : (i, a) ∈ l.enum := List.mk_mem_enum_iff_getElem?.mpr hi
          have := List.filter_eq_nil_iff.mp hempty (i, a) hmem
          simpa using this
        rw [trimLastStage_match_none (by rw [hfilter, hlast]), hrev,
          List.eraseP_of_forall_not
            (by intro a ha; simpa using hnostage a (List.mem_reverse.mp ha)),
          List.reverse_cons, List.reverse_reverse]
      | some q =>
        have hqmem : q ∈ l.enum := List.mem_of_mem_filter (List.mem_of_getLast?_eq_some hlast)
        have hqlt : q.1 < l.length := List.fst_lt_of_mem_enum hqmem
        have hsingle : List.filter (fun p => decide (p.1 ≠ q.1)) [(l.length, e)] =
            [(l.length, e)] := by
          simp only [List.filter_cons, List.filter_nil, decide_eq_true_eq, ne_eq]
          rw [if_pos (by omega)]
        rw [trimLastStage_match_some (by rw [hfilter, hlast]), henum, List.filter_append,
          hsingle, List.map_append, List.map_singleton]
        have hL' : Ctx.trimLastStage l =
            (l.enum.filter fun p => decide (p.1 ≠ q.1)).map (·.2) :=
          trimLastStage_match_some hlast
        rw [← hL', ih, hrev, List.reverse_cons]

theorem findPlant_updatePlantStage {st : List Area} {areaId plantId : String} {p : Plant}
    (e t s : String) (h : findPlant st areaId plantId = some p) :
    findPlant ((Ctx.updatePlantStage e t areaId plantId s st).1) areaId plantId =
      some { p with stage := some s,
                    journal := p.journal ++ [⟨e, t, (STAGE_LABELS s).getD s, "stage"⟩] } := by
  have := findPlant_update st areaId plantId
    (fun q => { q with stage := some s,
                       journal := q.journal ++ [⟨e, t, (STAGE_LABELS s).getD s, "stage"⟩] })
    (fun q => rfl)
  rw [show (Ctx.updatePlantStage e t areaId plantId s st).1 =
      st.map (fun a =>
        if a.id = areaId then
          { a with plants := a.plants.map fun q =>
              if q.id = plantId then
                { q with stage := some s,
                         journal := q.journal ++ [⟨e, t, (STAGE_LABELS s).getD s, "stage"⟩] }
              else q }
        else a) from rfl, this, h]
  rfl

theorem findPlant_rollbackPlantStage {st : List Area} {areaId plantId : String} {p : Plant}
    (s : Option String) (h : findPlant st areaId plantId = some p) :
    findPlant ((Ctx.rollbackPlantStage areaId plantId s st).1) areaId plantId =
      some { p with stage := s, journal := Ctx.trimLastStage p.journal } := by
  have := findPlant_update st areaId plantId
    (fun q => { q with stage := s, journal := Ctx.trimLastStage q.journal })
    (fun q => rfl)
  rw [show (Ctx.rollbackPlantStage areaId plantId s st).1 =
      st.map (fun a =>
        if a.id = areaId then
          { a with plants := a.plants.map fun q =>
              if q.id = plantId then
                { q with stage := s, journal := Ctx.trimLastStage q.journal }
              else q }
        else a) from rfl, this, h]
  rfl

theorem findPlant_addJournalEntry {st : List Area} {areaId plantId : String} {p : Plant}
    (e t text : String) (h : findPlant st areaId plantId = some p) :
    findPlant ((Ctx.addJournalEntry e t areaId plantId text st).1) areaId plantId =
      some { p with journal := p.journal ++ [⟨e, t, jsTrim text, "note"⟩] } := by
  have := findPlant_update st areaId plantId
    (fun q => { q with journal := q.journal ++ [⟨e, t, jsTrim text, "note"⟩] })
    (fun q => rfl)
  rw [show (Ctx.addJournalEntry e t areaId plantId text st).1 =
      st.map (fun a =>
        if a.id = areaId then
          { a with plants := a.plants.map fun q =>
              if q.id = plantId then
                { q with journal := q.journal ++ [⟨e, t, jsTrim text, "note"⟩] }
              else q }
        else a) from rfl, this, h]
  rfl

theorem trimLastStage_of_no_stage {l : List JEntry} (h : ∀ e ∈ l, e.type ≠ "stage") :
    Ctx.trimLastStage l = l := by
  rw [trimLastStage_eq, List.eraseP_of_forall_not
    (by intro a ha; simpa using h a (List.mem_reverse.mp ha))]
  exact List.reverse_reverse l

theorem trimLastStage_decomp {l : List JEntry} {e₀ : JEntry} (he : e₀ ∈ l)
    (hstage : e₀.type = "stage") :
    ∃ l₁ e l₂, l = l₁ ++ e :: l₂ ∧ e.type = "stage" ∧ (∀ x ∈ l₂, x.type ≠ "stage") ∧
      Ctx.trimLastStage l = l₁ ++ l₂ := by
  obtain ⟨a, r₁, r₂, hr₁, hpa, hrev, herase⟩ :=
    List.exists_of_eraseP (p := fun e => decide (e.type = "stage"))
      (List.mem_reverse.mpr he) (by simpa using hstage)
  refine ⟨r₂.reverse, a, r₁.reverse, ?_, by simpa using hpa, ?_, ?_⟩
  · have := congrArg List.reverse hrev
    simpa [List.reverse_append] using this
  · intro x hx
    have := hr₁ x (List.mem_reverse.mp hx)
    simpa using this
  · rw [trimLastStage_eq, herase]
    simp [List.reverse_append]

theorem stageCount_append (j₁ j₂ : List JEntry) :
    stageCount (j₁ ++ j₂) = stageCount j₁ + stageCount j₂ :=
  List.countP_append _ _ _

theorem stageCount_eq_zero {j : List JEntry} :
    stageCount j = 0 ↔ ∀ e ∈ j, e.type ≠ "stage" := by
  unfold stageCount
  rw [List.countP_eq_zero]
  simp

theorem stageCount_pos {j : List JEntry} :
    0 < stageCount j ↔ ∃ e ∈ j, e.type = "stage" := by
  unfold stageCount
  rw [List.countP_pos_iff]
  simp

theorem trimLastStage_of_zero {j : List JEntry} (h : stageCount j = 0) :
    Ctx.trimLastStage j = j :=
  trimLastStage_of_no_stage (stageCount_eq_zero.mp h)

theorem stageCount_trimLastStage {j : List JEntry} (h : 0 < stageCount j) :
    stageCount (Ctx.trimLastStage j) + 1 = stageCount j := by
  obtain ⟨e₀, he₀, hs₀⟩ := stageCount_pos.mp h
  obtain ⟨l₁, e, l₂, hj, hes, _, htrim⟩ := trimLastStage_decomp he₀ hs₀
  rw [htrim, hj, stageCount_append, stageCount_append]
  have : stageCount (e :: l₂) = stageCount l₂ + 1 := by
    unfold stageCount
    rw [List.countP_cons]
    simp [hes]
  omega

theorem noteEntries_trimLastStage (j : List JEntry) :
    noteEntries (Ctx.trimLastStage j) = noteEntries j := by
  by_cases h : 0 < stageCount j
  · obtain ⟨e₀, he₀, hs₀⟩ := stageCount_pos.mp h
    obtain ⟨l₁, e, l₂, hj, hes, _, htrim⟩ := trimLastStage_decomp he₀ hs₀
    rw [htrim, hj]
    unfold noteEntries
    rw [List.filter_append, List.filter_append, List.filter_cons]
    have : ¬(e.type = "note") := by rw [hes]; decide
    simp [this]
  · rw [trimLastStage_of_zero (by omega)]

theorem length_trimLastStage_le (j : List JEntry) :
    (Ctx.trimLastStage j).length ≤ j.length := by
  rw [trimLastStage_eq]
  simp only [List.length_reverse]
  have h := List.length_eraseP_le (l := j.reverse) (p := fun e => decide (e.type = "stage"))
  simpa using h

theorem length_trimLastStage_ge (j : List JEntry) :
    j.length - 1 ≤ (Ctx.trimLastStage j).length := by
  rw [trimLastStage_eq]
  simp only [List.length_reverse]
  have h := List.le_length_eraseP (l := j.reverse) (p := fun e => decide (e.type = "stage"))
  simpa using h

/-! ## Claim theorems -/

/-- C3: when the area contains the plant, `updatePlantStage(areaId,
plantId, newStage)` sets that plant's stage to `newStage`, appends
exactly one entry at the end of its journal — of type `stage`, with the
label for `newStage` as its text and today's display date (`todayStr`
stands for `today()`) — and dispatches exactly two persistence writes:
the stage column update and the journal entry insert. -/
theorem c3_updatePlantStage_sets_stage_appends_entry
    (st : List Area) (areaId plantId newStage entryId todayStr : String) (p : Plant)
    (hfind : findPlant st areaId plantId = some p)
    (hstage : newStage ∈ ["planted", "sprouted", "growing", "harvesting", "done"]) :
    ∃ lbl, STAGE_LABELS newStage = some lbl ∧
      findPlant ((Ctx.updatePlantStage entryId todayStr areaId plantId newStage st).1)
          areaId plantId =
        some { p with stage := some newStage,
                      journal := p.journal ++ [⟨entryId, todayStr, lbl, "stage"⟩] } ∧
      (Ctx.updatePlantStage entryId todayStr areaId plantId newStage st).2 =
        [DbCall.updatePlantStage plantId (some newStage),
         DbCall.insertJournalEntry entryId plantId todayStr lbl "stage"] := by
  have hlbl : ∃ lbl, STAGE_LABELS newStage = some lbl := by
    simp only [List.mem_cons, List.not_mem_nil, or_false] at hstage
    rcases hstage with rfl | rfl | rfl | rfl | rfl <;> exact ⟨_, rfl⟩
  obtain ⟨lbl, hlbl⟩ := hlbl
  refine ⟨lbl, hlbl, ?_, ?_⟩
  · have h := findPlant_updatePlantStage entryId todayStr newStage hfind
    rw [h, hlbl]
    rfl
  · show [DbCall.updatePlantStage plantId (some newStage),
      DbCall.insertJournalEntry entryId plantId todayStr
        ((STAGE_LABELS newStage).getD newStage) "stage"] = _
    rw [hlbl]
    rfl

/-- Witness for C3 at a concrete input: advancing `p1` in `a1` to
`planted`. -/
theorem c3_witness :
    ∃ lbl, STAGE_LABELS "planted" = some lbl ∧
      findPlant ((Ctx.updatePlantStage "e9" "3 Jan 2025" "a1" "p1" "planted" sampleState).1)
          "a1" "p1" =
        some { samplePlant with
                stage := some "planted",
                journal := samplePlant.journal ++ [⟨"e9", "3 Jan 2025", lbl, "stage"⟩] } ∧
      (Ctx.updatePlantStage "e9" "3 Jan 2025" "a1" "p1" "planted" sampleState).2 =
        [DbCall.updatePlantStage "p1" (some "planted"),
         DbCall.insertJournalEntry "e9" "p1" "3 Jan 2025" lbl "stage"] :=
  c3_updatePlantStage_sets_stage_appends_entry sampleState "a1" "p1" "planted" "e9"
    "3 Jan 2025" samplePlant (by decide) (by decide)

/-- C4: when the area contains the plant, `rollbackPlantStage(areaId,
plantId, previousStage)` sets that plant's stage to `previousStage`
(possibly null), removes exactly the last-positioned `stage`-typed entry
from its journal (leaving the journal unchanged when it holds no `stage`
entry), and adds no new entry. -/
theorem c4_rollbackPlantStage_removes_last_stage_entry
    (st : List Area) (areaId plantId : String) (prevStage : Option String) (p : Plant)
    (hfind : findPlant st areaId plantId = some p) :
    ∃ p', findPlant ((Ctx.rollbackPlantStage areaId plantId prevStage st).1)
            areaId plantId = some p' ∧
      p'.stage = prevStage ∧
      p'.journal.length ≤ p.journal.length ∧
      ((∀ e ∈ p.journal, e.type ≠ "stage") → p'.journal = p.journal) ∧
      (∀ e₀ ∈ p.journal, e₀.type = "stage" →
        ∃ l₁ e l₂, p.journal = l₁ ++ e :: l₂ ∧ e.type = "stage" ∧
          (∀ x ∈ l₂, x.type ≠ "stage") ∧ p'.journal = l₁ ++ l₂) := by
  refine ⟨{ p with stage := prevStage, journal := Ctx.trimLastStage p.journal },
    findPlant_rollbackPlantStage prevStage hfind, rfl,
    length_trimLastStage_le p.journal, ?_, ?_⟩
  · intro h
    exact trimLastStage_of_no_stage h
  · intro e₀ he₀ hs₀
    exact trimLastStage_decomp he₀ hs₀

/-- Witness for C4 at a concrete input: rolling `p2` in `a1` back to
null removes its single stage entry and keeps the note. -/
theorem c4_witness :
    ∃ p', findPlant ((Ctx.rollbackPlantStage "a1" "p2" none sampleState).1) "a1" "p2" =
            some p' ∧
      p'.stage = none ∧
      p'.journal.length ≤ samplePlant2.journal.length ∧
      ((∀ e ∈ samplePlant2.journal, e.type ≠ "stage") → p'.journal = samplePlant2.journal) ∧
      (∀ e₀ ∈ samplePlant2.journal, e₀.type = "stage" →
        ∃ l₁ e l₂, samplePlant2.journal = l₁ ++ e :: l₂ ∧ e.type = "stage" ∧
          (∀ x ∈ l₂, x.type ≠ "stage") ∧ p'.journal = l₁ ++ l₂) :=
  c4_rollbackPlantStage_removes_last_stage_entry sampleState "a1" "p2" none samplePlant2
    (by decide)

/-- C5 counterexample: on inputs that trim to the empty string, the
store mutations themselves are NOT no-ops — `addJournalEntry` changes
the state (appending an empty-text note) and dispatches a write, and
`createArea` appends an empty-named area and dispatches a write. -/
theorem c5_counterexample :
    (Ctx.addJournalEntry "e9" "3 Jan 2025" "a1" "p1" "   " sampleState).1 ≠ sampleState ∧
    (Ctx.addJournalEntry "e9" "3 Jan 2025" "a1" "p1" "   " sampleState).2 ≠ [] ∧
    (Ctx.createArea "a9" "2025-01-03" "   " "🪴" sampleState).1 ≠ sampleState ∧
    (Ctx.createArea "a9" "2025-01-03" "   " "🪴" sampleState).2 ≠ [] := by
  decide

/-- C5 (amended): the empty-after-trim validation is performed by the UI
handlers, not by the Garden Store mutations: the note submit handler and
the create-area handler return without touching the state and without
dispatching any persistence write when their text input trims to empty. -/
theorem c5_amended_ui_handlers_reject_empty
    (entryId todayStr areaId plantId input : String) (st : List Area)
    (newAreaId createdAt newName newEmoji : String)
    (hinput : jsTrim input = "") (hname : jsTrim newName = "") :
    UI.submitNote entryId todayStr areaId plantId input st = (st, []) ∧
    UI.handleCreate newAreaId createdAt newName newEmoji st = (st, []) := by
  constructor
  · unfold UI.submitNote
    simp [hinput]
  · unfold UI.handleCreate
    simp [hname]

/-- Witness for the amended C5 at concrete whitespace inputs. -/
theorem c5_witness :
    UI.submitNote "e9" "3 Jan 2025" "a1" "p1" "   " sampleState = (sampleState, []) ∧
    UI.handleCreate "a9" "2025-01-03" "  " "🪴" sampleState = (sampleState, []) :=
  c5_amended_ui_handlers_reject_empty "e9" "3 Jan 2025" "a1" "p1" "   " sampleState
    "a9" "2025-01-03" "  " "🪴" (by decide) (by decide)

theorem applyStageOps_nil (areaId plantId : String) (st : List Area) :
    applyStageOps areaId plantId [] st = st := rfl

theorem applyStageOps_cons (areaId plantId : String) (op : StageOp) (rest : List StageOp)
    (st : List Area) :
    applyStageOps areaId plantId (op :: rest) st =
      applyStageOps areaId plantId rest (applyStageOp areaId plantId st op) := rfl

theorem advCount_nil : advCount [] = 0 := rfl

theorem rbCount_nil : rbCount [] = 0 := rfl

theorem advCount_cons_adv (e t s : String) (ops : List StageOp) :
    advCount (StageOp.adv e t s :: ops) = advCount ops + 1 := by
  simp [advCount, List.countP_cons, isAdvOp]

theorem advCount_cons_rb (s : Option String) (ops : List StageOp) :
    advCount (StageOp.rb s :: ops) = advCount ops := by
  simp [advCount, List.countP_cons, isAdvOp]

theorem rbCount_cons_adv (e t s : String) (ops : List StageOp) :
    rbCount (StageOp.adv e t s :: ops) = rbCount ops := by
  simp [rbCount, List.countP_cons, isAdvOp]

theorem rbCount_cons_rb (s : Option String) (ops : List StageOp) :
    rbCount (StageOp.rb s :: ops) = rbCount ops + 1 := by
  simp [rbCount, List.countP_cons, isAdvOp]

theorem c2_aux (areaId plantId : String) :
    ∀ (ops : List StageOp) (st : List Area) (p : Plant),
      findPlant st areaId plantId = some p →
      (∀ n, rbCount (ops.take n) ≤ stageCount p.journal + advCount (ops.take n)) →
      ∃ p', findPlant (applyStageOps areaId plantId ops st) areaId plantId = some p' ∧
        stageCount p'.journal + rbCount ops = stageCount p.journal + advCount ops := by
  intro ops
  induction ops with
  | nil =>
    intro st p hfind _
    exact ⟨p, by simpa [applyStageOps_nil] using hfind, by simp [advCount, rbCount]⟩
  | cons op rest ih =>
    intro st p hfind hwf
    cases op with
    | adv e t s =>
      have h1 := findPlant_updatePlantStage e t s hfind
      have hcount : stageCount
          ({ p with
              stage := some s,
              journal := p.journal ++ [⟨e, t, (STAGE_LABELS s).getD s, "stage"⟩] } : Plant).journal =
          stageCount p.journal + 1 := by
        show stageCount (p.journal ++ [⟨e, t, (STAGE_LABELS s).getD s, "stage"⟩]) = _
        rw [stageCount_append]
        simp [stageCount, List.countP_cons]
      have hwf' : ∀ n, rbCount (rest.take n) ≤
          (stageCount p.journal + 1) + advCount (rest.take n) := by
        intro n
        have h := hwf (n + 1)
        rw [List.take_succ_cons, rbCount_cons_adv, advCount_cons_adv] at h
        omega
      obtain ⟨p', hp', hcnt⟩ := ih _ _ h1 (by rw [hcount]; exact hwf')
      refine ⟨p', by rwa [applyStageOps_cons], ?_⟩
      rw [hcount] at hcnt
      rw [rbCount_cons_adv, advCount_cons_adv]
      omega
    | rb s =>
      have h1 := findPlant_rollbackPlantStage s hfind
      have hpos : 1 ≤ stageCount p.journal := by
        have h := hwf 1
        rw [show (1 : Nat) = 0 + 1 from rfl, List.take_succ_cons, List.take_zero,
          rbCount_cons_rb, advCount_cons_rb, rbCount_nil, advCount_nil] at h
        omega
      have hcount : stageCount (Ctx.trimLastStage p.journal) + 1 = stageCount p.journal :=
        stageCount_trimLastStage (by omega)
      have hwf' : ∀ n, rbCount (rest.take n) ≤
          stageCount (Ctx.trimLastStage p.journal) + advCount (rest.take n) := by
        intro n
        have h := hwf (n + 1)
        rw [List.take_succ_cons, rbCount_cons_rb, advCount_cons_rb] at h
        omega
      obtain ⟨p', hp', hcnt⟩ := ih _ _ h1 hwf'
      refine ⟨p', by rwa [applyStageOps_cons], ?_⟩
      have hcnt' : stageCount p'.journal + rbCount rest =
          stageCount (Ctx.trimLastStage p.journal) + advCount rest := hcnt
      rw [rbCount_cons_rb, advCount_cons_rb]
      omega

/-- C2 (amended): for sequences of `updatePlantStage` (advance) and
`rollbackPlantStage` calls on one plant that start from an empty journal
and in which no prefix has more rollbacks than advances — exactly the
sequences the stage buttons can produce — after every prefix the number
of `stage`-typed journal entries equals the number of advance calls
minus the number of rollback calls so far.  Unconditionally, one
rollback removes at most one journal entry and never removes a
`note`-typed entry. -/
theorem c2_journal_stage_consistency :
    (∀ (areaId plantId : String) (st : List Area) (p : Plant) (ops : List StageOp),
      findPlant st areaId plantId = some p → p.journal = [] →
      (∀ n, rbCount (ops.take n) ≤ advCount (ops.take n)) →
      ∀ n, ∃ p', findPlant (applyStageOps areaId plantId (ops.take n) st) areaId plantId =
          some p' ∧
        stageCount p'.journal + rbCount (ops.take n) = advCount (ops.take n)) ∧
    (∀ (areaId plantId : String) (st : List Area) (p : Plant) (s : Option String),
      findPlant st areaId plantId = some p →
      ∃ p', findPlant ((Ctx.rollbackPlantStage areaId plantId s st).1) areaId plantId =
          some p' ∧
        p.journal.length - 1 ≤ p'.journal.length ∧ p'.journal.length ≤ p.journal.length ∧
        noteEntries p'.journal = noteEntries p.journal) := by
  constructor
  · intro areaId plantId st p ops hfind hempty hwf n
    have hzero : stageCount p.journal = 0 := by rw [hempty]; rfl
    have hwf' : ∀ m, rbCount ((ops.take n).take m) ≤
        stageCount p.journal + advCount ((ops.take n).take m) := by
      intro m
      rw [hzero, List.take_take]
      simpa using hwf (min m n)
    obtain ⟨p', hp', hcnt⟩ := c2_aux areaId plantId (ops.take n) st p hfind hwf'
    exact ⟨p', hp', by rw [hzero] at hcnt; simpa using hcnt⟩
  · intro areaId plantId st p s hfind
    exact ⟨{ p with stage := s, journal := Ctx.trimLastStage p.journal },
      findPlant_rollbackPlantStage s hfind,
      length_trimLastStage_ge p.journal,
      length_trimLastStage_le p.journal,
      noteEntries_trimLastStage p.journal⟩

/-- C2 counterexample: for the one-element sequence consisting of a
single rollback on a fresh plant (stage null, empty journal), the
`stage`-entry count (0) differs from advances minus rollbacks (−1), so
the equality does not hold for every finite sequence. -/
theorem c2_counterexample :
    findPlant (applyStageOps "a1" "p1" [StageOp.rb none] sampleState) "a1" "p1" =
      some samplePlant ∧
    ((stageCount samplePlant.journal : Int) ≠
      (advCount [StageOp.rb none] : Int) - (rbCount [StageOp.rb none] : Int)) := by
  constructor
  · decide
  · decide

/-- Witness for the amended C2: the sequence advance, advance, rollback
on the fresh plant `p1` leaves exactly one `stage` entry, and a rollback
on `p2` removes one entry and keeps its note. -/
theorem c2_witness :
    (∃ p', findPlant
        (applyStageOps "a1" "p1"
          (([StageOp.adv "e3" "3 Jan 2025" "planted",
             StageOp.adv "e4" "4 Jan 2025" "sprouted",
             StageOp.rb (some "planted")]).take 3) sampleState) "a1" "p1" = some p' ∧
      stageCount p'.journal +
          rbCount (([StageOp.adv "e3" "3 Jan 2025" "planted",
             StageOp.adv "e4" "4 Jan 2025" "sprouted",
             StageOp.rb (some "planted")]).take 3) =
        advCount (([StageOp.adv "e3" "3 Jan 2025" "planted",
             StageOp.adv "e4" "4 Jan 2025" "sprouted",
             StageOp.rb (some "planted")]).take 3)) ∧
    (∃ p', findPlant ((Ctx.rollbackPlantStage "a1" "p2" none sampleState).1) "a1" "p2" =
        some p' ∧
      samplePlant2.journal.length - 1 ≤ p'.journal.length ∧
      p'.journal.length ≤ samplePlant2.journal.length ∧
      noteEntries p'.journal = noteEntries samplePlant2.journal) := by
  constructor
  · exact c2_journal_stage_consistency.1 "a1" "p1" sampleState samplePlant
      [StageOp.adv "e3" "3 Jan 2025" "planted",
       StageOp.adv "e4" "4 Jan 2025" "sprouted",
       StageOp.rb (some "planted")]
      (by decide) (by decide)
      (by intro n
          rcases n with _ | _ | _ | n <;>
            first
              | decide
              | (rw [List.take_of_length_le (by simp)]; decide))
      3
  · exact c2_journal_stage_consistency.2 "a1" "p2" sampleState samplePlant2 none (by decide)

/-- C6, evaluated at the failing input: renaming area `a1` from `Old`
to `New Name` with the emoji argument omitted updates the in-memory
area (name changed, emoji retained), but the dispatched
`UPDATE areas SET name = ?, emoji = ?` binds NULL for the omitted
emoji, the `emoji TEXT NOT NULL` constraint rejects the statement, the
rejection is caught, and the durable row — and hence a subsequent
`loadAllAreas` — still carries the OLD name and emoji: the rename does
not survive a reload, contradicting the claim. -/
theorem c6_rename_with_omitted_emoji_not_persisted :
    (Ctx.renameArea "a1" "New Name" none
        [⟨"a1", "Old", "🪴", "2025-01-01", []⟩]).1 =
      [⟨"a1", "New Name", "🪴", "2025-01-01", []⟩] ∧
    (Ctx.renameArea "a1" "New Name" none
        [⟨"a1", "Old", "🪴", "2025-01-01", []⟩]).2 =
      [DbCall.updateArea "a1" "New Name" none] ∧
    Db.updateArea ⟨[⟨"a1", "Old", "🪴", "2025-01-01"⟩], [], []⟩ "a1" "New Name" none =
      none ∧
    renameAreaPersist ⟨[⟨"a1", "Old", "🪴", "2025-01-01"⟩], [], []⟩ "a1" "New Name" none =
      ⟨[⟨"a1", "Old", "🪴", "2025-01-01"⟩], [], []⟩ ∧
    (Db.loadAllAreas
        (renameAreaPersist ⟨[⟨"a1", "Old", "🪴", "2025-01-01"⟩], [], []⟩
          "a1" "New Name" none)).map (·.name) = ["Old"] := by
  refine ⟨by decide, by decide, rfl, rfl, by decide⟩

theorem findPlant_id {st : List Area} {areaId plantId : String} {p : Plant}
    (h : findPlant st areaId plantId = some p) : p.id = plantId := by
  unfold findPlant at h
  cases hfa : findArea st areaId with
  | none => rw [hfa] at h; exact absurd h (by simp)
  | some a =>
    rw [hfa] at h
    have := List.find?_some (by simpa using h)
    simpa using this

theorem uiAdvance_eq {st : List Area} {areaId plantId : String} {p : Plant}
    (e t : String) (hfind : findPlant st areaId plantId = some p) :
    UI.uiAdvance e t areaId plantId st = (UI.advanceStage e t areaId p st).1 := by
  unfold UI.uiAdvance
  rw [hfind]

theorem uiGoBack_eq {st : List Area} {areaId plantId : String} {p : Plant}
    (hfind : findPlant st areaId plantId = some p) :
    UI.uiGoBack areaId plantId st = (UI.goBackStage areaId p st).1 := by
  unfold UI.uiGoBack
  rw [hfind]

theorem uiAdvance_stageAt {st : List Area} {areaId plantId : String} {p : Plant}
    (k : Nat) (hk : k ≤ 5) (e t : String)
    (hfind : findPlant st areaId plantId = some p) (hstage : p.stage = UI.stageAt k) :
    ∃ p', findPlant (UI.uiAdvance e t areaId plantId st) areaId plantId = some p' ∧
      p'.stage = UI.stageAt (min (k + 1) 5) := by
  rw [uiAdvance_eq e t hfind]
  unfold UI.advanceStage
  rw [hstage, findPlant_id hfind]
  interval_cases k
  · rw [if_pos (by decide)]
    exact ⟨_, findPlant_updatePlantStage e t _ hfind, rfl⟩
  · rw [if_pos (by decide)]
    exact ⟨_, findPlant_updatePlantStage e t _ hfind, rfl⟩
  · rw [if_pos (by decide)]
    exact ⟨_, findPlant_updatePlantStage e t _ hfind, rfl⟩
  · rw [if_pos (by decide)]
    exact ⟨_, findPlant_updatePlantStage e t _ hfind, rfl⟩
  · rw [if_pos (by decide)]
    exact ⟨_, findPlant_updatePlantStage e t _ hfind, rfl⟩
  · rw [if_neg (by decide)]
    exact ⟨p, hfind, hstage⟩

theorem uiGoBack_stageAt {st : List Area} {areaId plantId : String} {p : Plant}
    (k : Nat) (hk : k ≤ 5)
    (hfind : findPlant st areaId plantId = some p) (hstage : p.stage = UI.stageAt k) :
    ∃ p', findPlant (UI.uiGoBack areaId plantId st) areaId plantId = some p' ∧
      p'.stage = UI.stageAt (k - 1) := by
  rw [uiGoBack_eq hfind]
  unfold UI.goBackStage
  rw [hstage, findPlant_id hfind]
  interval_cases k
  · rw [if_neg (by decide), if_neg (by decide)]
    exact ⟨p, hfind, hstage⟩
  · rw [if_neg (by decide), if_pos (by decide)]
    exact ⟨_, findPlant_rollbackPlantStage _ hfind, rfl⟩
  · rw [if_pos (by decide)]
    exact ⟨_, findPlant_rollbackPlantStage _ hfind, rfl⟩
  · rw [if_pos (by decide)]
    exact ⟨_, findPlant_rollbackPlantStage _ hfind, rfl⟩
  · rw [if_pos (by decide)]
    exact ⟨_, findPlant_rollbackPlantStage _ hfind, rfl⟩
  · rw [if_pos (by decide)]
    exact ⟨_, findPlant_rollbackPlantStage _ hfind, rfl⟩

theorem uiAdvanceIter_stageAt (ids dates : Nat → String) (areaId plantId : String) :
    ∀ (n : Nat) (st : List Area) (p : Plant) (k : Nat), k ≤ 5 →
      findPlant st areaId plantId = some p → p.stage = UI.stageAt k →
      ∃ p', findPlant (UI.uiAdvanceIter ids dates areaId plantId n st) areaId plantId =
          some p' ∧ p'.stage = UI.stageAt (min (k + n) 5) := by
  intro n
  induction n with
  | zero =>
    intro st p k hk hfind hstage
    exact ⟨p, hfind, by rw [hstage]; congr 1; omega⟩
  | succ n ih =>
    intro st p k hk hfind hstage
    obtain ⟨p1, hp1, hs1⟩ := uiAdvance_stageAt k hk (ids n) (dates n) hfind hstage
    obtain ⟨p', hp', hs'⟩ := ih _ p1 (min (k + 1) 5) (by omega) hp1 hs1
    refine ⟨p', hp', ?_⟩
    rw [hs']
    congr 1
    omega

theorem uiGoBackIter_stageAt (areaId plantId : String) :
    ∀ (n : Nat) (st : List Area) (p : Plant) (k : Nat), k ≤ 5 →
      findPlant st areaId plantId = some p → p.stage = UI.stageAt k →
      ∃ p', findPlant (UI.uiGoBackIter areaId plantId n st) areaId plantId = some p' ∧
        p'.stage = UI.stageAt (k - n) := by
  intro n
  induction n with
  | zero =>
    intro st p k hk hfind hstage
    exact ⟨p, hfind, by rw [hstage, Nat.sub_zero]⟩
  | succ n ih =>
    intro st p k hk hfind hstage
    obtain ⟨p1, hp1, hs1⟩ := uiGoBack_stageAt k hk hfind hstage
    obtain ⟨p', hp', hs'⟩ := ih _ p1 (k - 1) (by omega) hp1 hs1
    refine ⟨p', hp', ?_⟩
    rw [hs']
    congr 1
    omega

/-- C9: starting from stage null, repeated advance taps visit the
stages in exactly the fixed order null → planted → sprouted → growing →
harvesting → done with no skips (after `n` taps the plant is at the
`min n 5`-th stage); an advance tap while at `done` leaves the state
unchanged; repeated go-back taps step back through the same order (after
`n` taps from the `k`-th stage the plant is at the `k − n`-th, reaching
null), and a go-back tap while at null leaves the state unchanged. -/
theorem c9_stage_monotonic_adjacency :
    (∀ (st : List Area) (areaId plantId : String) (p : Plant) (ids dates : Nat → String)
        (n : Nat),
      findPlant st areaId plantId = some p → p.stage = none →
      ∃ p', findPlant (UI.uiAdvanceIter ids dates areaId plantId n st) areaId plantId =
          some p' ∧ p'.stage = UI.stageAt (min n 5)) ∧
    (∀ (st : List Area) (areaId plantId : String) (p : Plant) (e t : String),
      findPlant st areaId plantId = some p → p.stage = some "done" →
      UI.uiAdvance e t areaId plantId st = st) ∧
    (∀ (st : List Area) (areaId plantId : String) (p : Plant) (k n : Nat), k ≤ 5 →
      findPlant st areaId plantId = some p → p.stage = UI.stageAt k →
      ∃ p', findPlant (UI.uiGoBackIter areaId plantId n st) areaId plantId = some p' ∧
        p'.stage = UI.stageAt (k - n)) ∧
    (∀ (st : List Area) (areaId plantId : String) (p : Plant),
      findPlant st areaId plantId = some p → p.stage = none →
      UI.uiGoBack areaId plantId st = st) := by
  refine ⟨?_, ?_, ?_, ?_⟩
  · intro st areaId plantId p ids dates n hfind hstage
    have h := uiAdvanceIter_stageAt ids dates areaId plantId n st p 0 (by omega) hfind
      (by rw [hstage]; rfl)
    simpa using h
  · intro st areaId plantId p e t hfind hstage
    rw [uiAdvance_eq e t hfind]
    unfold UI.advanceStage
    rw [hstage, if_neg (by decide)]
  · intro st areaId plantId p k n hk hfind hstage
    exact uiGoBackIter_stageAt areaId plantId n st p k hk hfind hstage
  · intro st areaId plantId p hfind hstage
    rw [uiGoBack_eq hfind]
    unfold UI.goBackStage
    rw [hstage, if_neg (by decide), if_neg (by decide)]

theorem frame_map_if {α} (l : List α) (P : α → Prop) [DecidablePred P] (g : α → α)
    (i : Nat) (a : α) (ha : l[i]? = some a) (hP : ¬P a) :
    (l.map fun x => if P x then g x else x)[i]? = some a := by
  rw [List.getElem?_map, ha]
  simp [hP]

theorem frame_map_if_pos {α} (l : List α) (P : α → Prop) [DecidablePred P] (g : α → α)
    (i : Nat) (a : α) (ha : l[i]? = some a) (hP : P a) :
    (l.map fun x => if P x then g x else x)[i]? = some (g a) := by
  rw [List.getElem?_map, ha]
  simp [hP]

theorem map_if_branches_eq {α} (l : List α) (P : α → Prop) [DecidablePred P] (g : α → α)
    (h : ∀ a ∈ l, P a → g a = a) :
    (l.map fun x => if P x then g x else x) = l := by
  induction l with
  | nil => rfl
  | cons a t ih =>
    rw [List.map_cons, ih fun x hx => h x (List.mem_cons_of_mem a hx)]
    by_cases hP : P a
    · rw [if_pos hP, h a (List.mem_cons_self a t) hP]
    · rw [if_neg hP]

theorem plantmap_nomatch (prev : List Area) (areaId plantId : String) (gq : Plant → Plant)
    (hno : ∀ a ∈ prev, a.id = areaId → ∀ q ∈ a.plants, q.id ≠ plantId) :
    (prev.map fun a =>
      if a.id = areaId then
        { a with plants := a.plants.map fun q => if q.id = plantId then gq q else q }
      else a) = prev := by
  apply map_if_branches_eq
  intro a ha hid
  have h2 := map_if_branches_eq a.plants (fun q => q.id = plantId) gq
    (fun q hq hqid => absurd hqid (hno a ha hid q hq))
  rw [h2]

theorem plantmap_frame (prev : List Area) (areaId plantId : String) (gq : Plant → Plant)
    (i : Nat) (a : Area) (ha : prev[i]? = some a) (hid : a.id = areaId)
    (j : Nat) (q : Plant) (hq : a.plants[j]? = some q) (hne : q.id ≠ plantId) :
    ∃ a', (prev.map fun a =>
        if a.id = areaId then
          { a with plants := a.plants.map fun q => if q.id = plantId then gq q else q }
        else a)[i]? = some a' ∧
      a'.id = a.id ∧ a'.plants.length = a.plants.length ∧ a'.plants[j]? = some q := by
  refine ⟨_, frame_map_if_pos prev (fun x => x.id = areaId) _ i a ha hid, rfl, by simp, ?_⟩
  exact frame_map_if a.plants (fun x => x.id = plantId) gq j q hq hne


/-- Witness for C9 on the concrete sample state: six advance taps on
`p1` land on `done` (the sixth is a no-op), and two go-back taps from
`planted` (`p2`, the 1st stage) land back on null. -/
theorem c9_witness :
    (∃ p', findPlant
        (UI.uiAdvanceIter (fun n => toString n) (fun _ => "3 Jan 2025") "a1" "p1" 6
          sampleState) "a1" "p1" = some p' ∧ p'.stage = UI.stageAt (min 6 5)) ∧
    (∃ p', findPlant (UI.uiGoBackIter "a1" "p2" 2 sampleState) "a1" "p2" = some p' ∧
      p'.stage = UI.stageAt (1 - 2)) :=
  ⟨c9_stage_monotonic_adjacency.1 sampleState "a1" "p1" samplePlant
      (fun n => toString n) (fun _ => "3 Jan 2025") 6 (by decide) (by decide),
   c9_stage_monotonic_adjacency.2.2.1 sampleState "a1" "p2" samplePlant2 1 2 (by decide)
      (by decide) (by decide)⟩

/-- C10: every area-targeted Garden Store mutation leaves every area
with a different id exactly unchanged, in place (so the relative order
of areas is preserved); the plant-targeted mutations leave every plant
of the matching area with a different id exactly unchanged, in place;
and when no area (or, for the plant-targeted mutations, no plant)
matches, the whole in-memory state is unchanged.  One block per
mutation: renameArea, addPlantToArea, addCustomPlantToArea,
updatePlantStage, rollbackPlantStage, addJournalEntry,
removeJournalEntry, removePlantFromArea. -/
theorem c10_frame_effects (prev : List Area) (areaId plantId : String) :
    (∀ (newName : String) (newEmoji : Option String),
      (Ctx.renameArea areaId newName newEmoji prev).1.length = prev.length ∧
      (∀ (i : Nat) (a : Area), prev[i]? = some a → a.id ≠ areaId →
        (Ctx.renameArea areaId newName newEmoji prev).1[i]? = some a) ∧
      ((∀ a ∈ prev, a.id ≠ areaId) → (Ctx.renameArea areaId newName newEmoji prev).1 = prev)) ∧
    (∀ (newId plantedDate : String) (seed : SeedInput),
      (Ctx.addPlantToArea newId plantedDate areaId seed prev).1.length = prev.length ∧
      (∀ (i : Nat) (a : Area), prev[i]? = some a → a.id ≠ areaId →
        (Ctx.addPlantToArea newId plantedDate areaId seed prev).1[i]? = some a) ∧
      ((∀ a ∈ prev, a.id ≠ areaId) →
        (Ctx.addPlantToArea newId plantedDate areaId seed prev).1 = prev) ∧
      (∀ (i : Nat) (a : Area), prev[i]? = some a → a.id = areaId →
        (Ctx.addPlantToArea newId plantedDate areaId seed prev).1[i]? =
          some { a with plants := a.plants ++ [Ctx.mkPlantRecord newId plantedDate seed] })) ∧
    (∀ (newId plantedDate name : String) (category : Option String),
      (Ctx.addCustomPlantToArea newId plantedDate areaId name category prev).1.length =
        prev.length ∧
      (∀ (i : Nat) (a : Area), prev[i]? = some a → a.id ≠ areaId →
        (Ctx.addCustomPlantToArea newId plantedDate areaId name category prev).1[i]? =
          some a) ∧
      ((∀ a ∈ prev, a.id ≠ areaId) →
        (Ctx.addCustomPlantToArea newId plantedDate areaId name category prev).1 = prev)) ∧
    (∀ (e t s : String),
      (Ctx.updatePlantStage e t areaId plantId s prev).1.length = prev.length ∧
      (∀ (i : Nat) (a : Area), prev[i]? = some a → a.id ≠ areaId →
        (Ctx.updatePlantStage e t areaId plantId s prev).1[i]? = some a) ∧
      ((∀ a ∈ prev, a.id ≠ areaId) → (Ctx.updatePlantStage e t areaId plantId s prev).1 = prev) ∧
      (∀ (i : Nat) (a : Area), prev[i]? = some a → a.id = areaId → ∀ (j : Nat) (q : Plant), a.plants[j]? = some q →
        q.id ≠ plantId →
        ∃ a' : Area, (Ctx.updatePlantStage e t areaId plantId s prev).1[i]? = some a' ∧
          a'.id = a.id ∧ a'.plants.length = a.plants.length ∧ a'.plants[j]? = some q) ∧
      ((∀ a ∈ prev, a.id = areaId → ∀ q ∈ a.plants, q.id ≠ plantId) →
        (Ctx.updatePlantStage e t areaId plantId s prev).1 = prev)) ∧
    (∀ (s : Option String),
      (Ctx.rollbackPlantStage areaId plantId s prev).1.length = prev.length ∧
      (∀ (i : Nat) (a : Area), prev[i]? = some a → a.id ≠ areaId →
        (Ctx.rollbackPlantStage areaId plantId s prev).1[i]? = some a) ∧
      ((∀ a ∈ prev, a.id ≠ areaId) → (Ctx.rollbackPlantStage areaId plantId s prev).1 = prev) ∧
      (∀ (i : Nat) (a : Area), prev[i]? = some a → a.id = areaId → ∀ (j : Nat) (q : Plant), a.plants[j]? = some q →
        q.id ≠ plantId →
        ∃ a' : Area, (Ctx.rollbackPlantStage areaId plantId s prev).1[i]? = some a' ∧
          a'.id = a.id ∧ a'.plants.length = a.plants.length ∧ a'.plants[j]? = some q) ∧
      ((∀ a ∈ prev, a.id = areaId → ∀ q ∈ a.plants, q.id ≠ plantId) →
        (Ctx.rollbackPlantStage areaId plantId s prev).1 = prev)) ∧
    (∀ (e t text : String),
      (Ctx.addJournalEntry e t areaId plantId text prev).1.length = prev.length ∧
      (∀ (i : Nat) (a : Area), prev[i]? = some a → a.id ≠ areaId →
        (Ctx.addJournalEntry e t areaId plantId text prev).1[i]? = some a) ∧
      ((∀ a ∈ prev, a.id ≠ areaId) → (Ctx.addJournalEntry e t areaId plantId text prev).1 = prev) ∧
      (∀ (i : Nat) (a : Area), prev[i]? = some a → a.id = areaId → ∀ (j : Nat) (q : Plant), a.plants[j]? = some q →
        q.id ≠ plantId →
        ∃ a' : Area, (Ctx.addJournalEntry e t areaId plantId text prev).1[i]? = some a' ∧
          a'.id = a.id ∧ a'.plants.length = a.plants.length ∧ a'.plants[j]? = some q) ∧
      ((∀ a ∈ prev, a.id = areaId → ∀ q ∈ a.plants, q.id ≠ plantId) →
        (Ctx.addJournalEntry e t areaId plantId text prev).1 = prev)) ∧
    (∀ (entryId : String),
      (Ctx.removeJournalEntry areaId plantId entryId prev).1.length = prev.length ∧
      (∀ (i : Nat) (a : Area), prev[i]? = some a → a.id ≠ areaId →
        (Ctx.removeJournalEntry areaId plantId entryId prev).1[i]? = some a) ∧
      ((∀ a ∈ prev, a.id ≠ areaId) →
        (Ctx.removeJournalEntry areaId plantId entryId prev).1 = prev) ∧
      (∀ (i : Nat) (a : Area), prev[i]? = some a → a.id = areaId → ∀ (j : Nat) (q : Plant), a.plants[j]? = some q →
        q.id ≠ plantId →
        ∃ a' : Area, (Ctx.removeJournalEntry areaId plantId entryId prev).1[i]? = some a' ∧
          a'.id = a.id ∧ a'.plants.length = a.plants.length ∧ a'.plants[j]? = some q) ∧
      ((∀ a ∈ prev, a.id = areaId → ∀ q ∈ a.plants, q.id ≠ plantId) →
        (Ctx.removeJournalEntry areaId plantId entryId prev).1 = prev)) ∧
    ((Ctx.removePlantFromArea areaId plantId prev).1.length = prev.length ∧
      (∀ (i : Nat) (a : Area), prev[i]? = some a → a.id ≠ areaId →
        (Ctx.removePlantFromArea areaId plantId prev).1[i]? = some a) ∧
      ((∀ a ∈ prev, a.id ≠ areaId) → (Ctx.removePlantFromArea areaId plantId prev).1 = prev) ∧
      (∀ (i : Nat) (a : Area), prev[i]? = some a → a.id = areaId →
        (Ctx.removePlantFromArea areaId plantId prev).1[i]? =
          some { a with plants := a.plants.filter fun q => q.id ≠ plantId }) ∧
      ((∀ a ∈ prev, a.id = areaId → ∀ q ∈ a.plants, q.id ≠ plantId) →
        (Ctx.removePlantFromArea areaId plantId prev).1 = prev)) := by
  refine ⟨?_, ?_, ?_, ?_, ?_, ?_, ?_, ?_⟩
  · intro newName newEmoji
    refine ⟨by simp [Ctx.renameArea], ?_, ?_⟩
    · intro i a ha hne
      exact frame_map_if prev (fun x => x.id = areaId) _ i a ha hne
    · intro hno
      exact map_if_branches_eq prev (fun x => x.id = areaId) _
        (fun a ha hid => absurd hid (hno a ha))
  · intro newId plantedDate seed
    refine ⟨by simp [Ctx.addPlantToArea], ?_, ?_, ?_⟩
    · intro i a ha hne
      exact frame_map_if prev (fun x => x.id = areaId) _ i a ha hne
    · intro hno
      exact map_if_branches_eq prev (fun x => x.id = areaId) _
        (fun a ha hid => absurd hid (hno a ha))
    · intro i a ha hid
      exact frame_map_if_pos prev (fun x => x.id = areaId) _ i a ha hid
  · intro newId plantedDate name category
    refine ⟨by simp [Ctx.addCustomPlantToArea], ?_, ?_⟩
    · intro i a ha hne
      exact frame_map_if prev (fun x => x.id = areaId) _ i a ha hne
    · intro hno
      exact map_if_branches_eq prev (fun x => x.id = areaId) _
        (fun a ha hid => absurd hid (hno a ha))
  · intro e t s
    refine ⟨by simp [Ctx.updatePlantStage], ?_, ?_, ?_, ?_⟩
    · intro i a ha hne
      exact frame_map_if prev (fun x => x.id = areaId) _ i a ha hne
    · intro hno
      exact map_if_branches_eq prev (fun x => x.id = areaId) _
        (fun a ha hid => absurd hid (hno a ha))
    · intro i a ha hid j q hq hne
      exact plantmap_frame prev areaId plantId _ i a ha hid j q hq hne
    · intro hno
      exact plantmap_nomatch prev areaId plantId _ hno
  · intro s
    refine ⟨by simp [Ctx.rollbackPlantStage], ?_, ?_, ?_, ?_⟩
    · intro i a ha hne
      exact frame_map_if prev (fun x => x.id = areaId) _ i a ha hne
    · intro hno
      exact map_if_branches_eq prev (fun x => x.id = areaId) _
        (fun a ha hid => absurd hid (hno a ha))
    · intro i a ha hid j q hq hne
      exact plantmap_frame prev areaId plantId _ i a ha hid j q hq hne
    · intro hno
      exact plantmap_nomatch prev areaId plantId _ hno
  · intro e t text
    refine ⟨by simp [Ctx.addJournalEntry], ?_, ?_, ?_, ?_⟩
    · intro i a ha hne
      exact frame_map_if prev (fun x => x.id = areaId) _ i a ha hne
    · intro hno
      exact map_if_branches_eq prev (fun x => x.id = areaId) _
        (fun a ha hid => absurd hid (hno a ha))
    · intro i a ha hid j q hq hne
      exact plantmap_frame prev areaId plantId _ i a ha hid j q hq hne
    · intro hno
      exact plantmap_nomatch prev areaId plantId _ hno
  · intro entryId
    refine ⟨by simp [Ctx.removeJournalEntry], ?_, ?_, ?_, ?_⟩
    · intro i a ha hne
      exact frame_map_if prev (fun x => x.id = areaId) _ i a ha hne
    · intro hno
      exact map_if_branches_eq prev (fun x => x.id = areaId) _
        (fun a ha hid => absurd hid (hno a ha))
    · intro i a ha hid j q hq hne
      exact plantmap_frame prev areaId plantId _ i a ha hid j q hq hne
    · intro hno
      exact plantmap_nomatch prev areaId plantId _ hno
  · refine ⟨by simp [Ctx.removePlantFromArea], ?_, ?_, ?_, ?_⟩
    · intro i a ha hne
      exact frame_map_if prev (fun x => x.id = areaId) _ i a ha hne
    · intro hno
      exact map_if_branches_eq prev (fun x => x.id = areaId) _
        (fun a ha hid => absurd hid (hno a ha))
    · intro i a ha hid
      exact frame_map_if_pos prev (fun x => x.id = areaId) _ i a ha hid
    · intro hno
      apply map_if_branches_eq
      intro a ha hid
      have h2 : a.plants.filter (fun q => q.id ≠ plantId) = a.plants :=
        List.filter_eq_self.mpr (fun q hq => by simpa using hno a ha hid q hq)
      rw [h2]

/-- Witness for C10 at concrete inputs: renaming `a2` leaves `a1`
untouched in place; advancing `p1` in `a1` leaves `p2` untouched in
place; removing a plant from a non-existent area leaves the state
unchanged. -/
theorem c10_witness :
    (Ctx.renameArea "a2" "Renamed" none sampleState).1[0]? = some sampleArea ∧
    (∃ a', (Ctx.updatePlantStage "e9" "3 Jan 2025" "a1" "p1" "planted" sampleState).1[0]? =
        some a' ∧
      a'.id = sampleArea.id ∧ a'.plants.length = sampleArea.plants.length ∧
      a'.plants[1]? = some samplePlant2) ∧
    (Ctx.removePlantFromArea "zz" "p1" sampleState).1 = sampleState :=
  ⟨((c10_frame_effects sampleState "a2" "p1").1 "Renamed" none).2.1 0 sampleArea
      (by decide) (by decide),
   (((c10_frame_effects sampleState "a1" "p1").2.2.2.1 "e9" "3 Jan 2025" "planted").2.2.2.1)
      0 sampleArea (by decide) (by decide) 1 samplePlant2 (by decide) (by decide),
   ((c10_frame_effects sampleState "zz" "p1").2.2.2.2.2.2.2).2.2.1
      (by decide)⟩

/-- C1: `createAreaAndAddPlant` changes the in-memory areas list in one
state transition from a list without the new area to the same list with
the new area appended already containing its one plant (no intermediate
area-without-plant state exists), dispatches exactly one persistence
call — a single transaction holding the area insert and the plant
insert — and, under simulated write failure of either statement, the
durable store either commits both rows or stays exactly as it was, so
it never holds the area row without the matching plant row. -/
theorem c1_create_area_and_add_plant_atomic
    (prev : List Area) (areaId plantId createdAt plantedDate name emoji : String)
    (seed : SeedInput) (db : DBState) (failA failP : Bool)
    (hfresh : ∀ a ∈ prev, a.id ≠ areaId)
    (hdbfresh : ∀ r ∈ db.areas, r.id ≠ areaId) :
    (Ctx.createAreaAndAddPlant areaId plantId createdAt plantedDate name emoji seed prev).1 =
      prev ++ [⟨areaId, jsTrim name, emoji, createdAt,
        [Ctx.mkPlantRecord plantId plantedDate seed]⟩] ∧
    findArea prev areaId = none ∧
    findArea
        ((Ctx.createAreaAndAddPlant areaId plantId createdAt plantedDate name emoji seed
          prev).1) areaId =
      some ⟨areaId, jsTrim name, emoji, createdAt,
        [Ctx.mkPlantRecord plantId plantedDate seed]⟩ ∧
    (Ctx.createAreaAndAddPlant areaId plantId createdAt plantedDate name emoji seed prev).2 =
      [DbCall.txInsertAreaAndPlant areaId (jsTrim name) emoji createdAt plantId seed.id
        (jsOr seed.title seed.name) seed.category seed.image_url plantedDate none] ∧
    (failA = false → failP = false →
      Db.createAreaAndAddPlantTx db failA failP areaId (jsTrim name) emoji createdAt plantId
          seed.id (jsOr seed.title seed.name) seed.category seed.image_url plantedDate none =
        { db with
            areas := db.areas ++ [⟨areaId, jsTrim name, emoji, createdAt⟩],
            plants := db.plants ++ [⟨plantId, areaId, seed.id, jsOr seed.title seed.name,
              seed.category, seed.image_url, plantedDate, none⟩] }) ∧
    (failA = true ∨ failP = true →
      Db.createAreaAndAddPlantTx db failA failP areaId (jsTrim name) emoji createdAt plantId
          seed.id (jsOr seed.title seed.name) seed.category seed.image_url plantedDate none =
        db) ∧
    ((∃ r ∈ (Db.createAreaAndAddPlantTx db failA failP areaId (jsTrim name) emoji createdAt
          plantId seed.id (jsOr seed.title seed.name) seed.category seed.image_url
          plantedDate none).areas, r.id = areaId) →
      ∃ pr ∈ (Db.createAreaAndAddPlantTx db failA failP areaId (jsTrim name) emoji createdAt
          plantId seed.id (jsOr seed.title seed.name) seed.category seed.image_url
          plantedDate none).plants, pr.id = plantId ∧ pr.area_id = areaId) := by
  have hnone : findArea prev areaId = none :=
    List.find?_eq_none.mpr (fun a ha => by simpa using hfresh a ha)
  refine ⟨rfl, hnone, ?_, rfl, ?_, ?_, ?_⟩
  · show (prev ++ [(⟨areaId, jsTrim name, emoji, createdAt,
        [Ctx.mkPlantRecord plantId plantedDate seed]⟩ : Area)]).find?
        (fun a => a.id = areaId) = _
    rw [List.find?_append]
    unfold findArea at hnone
    rw [hnone]
    simp
  · intro hA hP
    subst hA; subst hP
    rfl
  · intro h
    cases failA <;> cases failP
    · simp at h
    · rfl
    · rfl
    · rfl
  · intro hmem
    cases failA <;> cases failP
    · exact ⟨⟨plantId, areaId, seed.id, jsOr seed.title seed.name, seed.category,
        seed.image_url, plantedDate, none⟩, by simp [Db.createAreaAndAddPlantTx,
          Db.withTransaction, Db.runStmts, Db.insertArea, Db.insertPlant], rfl, rfl⟩
    · obtain ⟨r, hr, hrid⟩ := hmem
      exact absurd hrid (hdbfresh r hr)
    · obtain ⟨r, hr, hrid⟩ := hmem
      exact absurd hrid (hdbfresh r hr)
    · obtain ⟨r, hr, hrid⟩ := hmem
      exact absurd hrid (hdbfresh r hr)

/-- Witness for C1 at concrete inputs: creating `a9` with a lettuce
seed on the sample state, with the plant insert failing, leaves the
empty database unchanged. -/
theorem c1_witness :
    (Ctx.createAreaAndAddPlant "a9" "p9" "2025-01-03" "2025-01-03" " New Bed " "🌿"
        ⟨some "c1", some "Lettuce", none, some "Vegetable", none⟩ sampleState).1 =
      sampleState ++ [⟨"a9", jsTrim " New Bed ", "🌿", "2025-01-03",
        [Ctx.mkPlantRecord "p9" "2025-01-03"
          ⟨some "c1", some "Lettuce", none, some "Vegetable", none⟩]⟩] ∧
    (Db.createAreaAndAddPlantTx ⟨[], [], []⟩ false true "a9" (jsTrim " New Bed ") "🌿"
        "2025-01-03" "p9" (some "c1") (jsOr (some "Lettuce") none) (some "Vegetable") none
        "2025-01-03" none) = ⟨[], [], []⟩ :=
  have h := c1_create_area_and_add_plant_atomic sampleState "a9" "p9" "2025-01-03"
    "2025-01-03" " New Bed " "🌿" ⟨some "c1", some "Lettuce", none, some "Vegetable", none⟩
    ⟨[], [], []⟩ false true (by decide) (by decide)
  ⟨h.1, h.2.2.2.2.2.1 (Or.inr rfl)⟩

theorem parseHex_hexDigit (n : Nat) (h : n < 16) :
    Json.parseHex (Json.hexDigit n) = some n := by
  interval_cases n <;> decide

theorem parseStrBody_unicode (h1c h2c : Char) (z w : Nat) (rest : List Char)
    (hz : Json.parseHex h1c = some z) (hw : Json.parseHex h2c = some w) :
    Json.parseStrBody ('\\' :: 'u' :: '0' :: '0' :: h1c :: h2c :: rest) =
      (Json.parseStrBody rest).map fun q =>
        (Char.ofNat (((0 * 16 + 0) * 16 + z) * 16 + w) :: q.1, q.2) := by
  have h0 : Json.parseHex '0' = some 0 := by decide
  rw [Json.parseStrBody.eq_def]
  simp [h0, hz, hw]

theorem escChar_parse (c : Char) (rest : List Char) :
    Json.parseStrBody (Json.escChar c ++ rest) =
      (Json.parseStrBody rest).map (fun q => (c :: q.1, q.2)) := by
  unfold Json.escChar
  by_cases h1 : c = '"'
  · subst h1; rw [if_pos rfl]; rw [Json.parseStrBody.eq_def]; simp
  · by_cases h2 : c = '\\'
    · subst h2; rw [if_neg h1, if_pos rfl]; rw [Json.parseStrBody.eq_def]; simp
    · by_cases h3 : c = Char.ofNat 8
      · subst h3; rw [if_neg h1, if_neg h2, if_pos rfl]; rw [Json.parseStrBody.eq_def]; simp
      · by_cases h4 : c = Char.ofNat 9
        · subst h4; rw [if_neg h1, if_neg h2, if_neg h3, if_pos rfl]
          rw [Json.parseStrBody.eq_def]; simp
        · by_cases h5 : c = Char.ofNat 10
          · subst h5; rw [if_neg h1, if_neg h2, if_neg h3, if_neg h4, if_pos rfl]
            rw [Json.parseStrBody.eq_def]; simp
          · by_cases h6 : c = Char.ofNat 12
            · subst h6; rw [if_neg h1, if_neg h2, if_neg h3, if_neg h4, if_neg h5,
                if_pos rfl]
              rw [Json.parseStrBody.eq_def]; simp
            · by_cases h7 : c = Char.ofNat 13
              · subst h7; rw [if_neg h1, if_neg h2, if_neg h3, if_neg h4, if_neg h5,
                  if_neg h6, if_pos rfl]
                rw [Json.parseStrBody.eq_def]; simp
              · by_cases h8 : c.toNat < 32
                · rw [if_neg h1, if_neg h2, if_neg h3, if_neg h4, if_neg h5, if_neg h6,
                    if_neg h7, if_pos h8]
                  have hhi : c.toNat / 16 < 16 := by omega
                  have hlo : c.toNat % 16 < 16 := by omega
                  show Json.parseStrBody ('\\' :: 'u' :: '0' :: '0' ::
                    Json.hexDigit (c.toNat / 16) :: Json.hexDigit (c.toNat % 16) :: rest) = _
                  rw [parseStrBody_unicode _ _ _ _ rest (parseHex_hexDigit _ hhi)
                    (parseHex_hexDigit _ hlo)]
                  simp only [show ((0 * 16 + 0) * 16 + c.toNat / 16) * 16 + c.toNat % 16 =
                    c.toNat from by omega, Char.ofNat_toNat]
                · rw [if_neg h1, if_neg h2, if_neg h3, if_neg h4, if_neg h5, if_neg h6,
                    if_neg h7, if_neg h8]
                  show Json.parseStrBody (c :: rest) = _
                  unfold Json.parseStrBody
                  rw [if_neg h1, if_neg h2, if_neg h8, ← Json.parseStrBody.eq_def]

theorem quoteStrBody_parse (s : List Char) (rest : List Char) :
    Json.parseStrBody ((s.map Json.escChar).flatten ++ ('"' :: rest)) = some (s, rest) := by
  induction s with
  | nil =>
    show Json.parseStrBody ('"' :: rest) = some ([], rest)
    unfold Json.parseStrBody
    simp
  | cons c s ih =>
    rw [List.map_cons, List.flatten_cons, List.append_assoc, escChar_parse, ih]
    rfl

theorem quoteStr_parse (s : List Char) (rest : List Char) :
    Json.parseStr (Json.quoteStr s ++ rest) = some (s, rest) := by
  show Json.parseStr ('"' :: ((s.map Json.escChar).flatten ++ ['"'] ++ rest)) = some (s, rest)
  rw [List.append_assoc, List.singleton_append]
  exact quoteStrBody_parse s rest

theorem parseListBody_roundtrip :
    ∀ (ss : List (List Char)) (fuel : Nat), ss.length ≤ fuel → ∀ (rest : List Char),
      Json.parseListBody fuel
          ((ss.map fun s => ',' :: Json.quoteStr s).flatten ++ (']' :: rest)) =
        some (ss, rest) := by
  intro ss
  induction ss with
  | nil =>
    intro fuel _ rest
    show Json.parseListBody fuel (']' :: rest) = some ([], rest)
    unfold Json.parseListBody
    rw [if_pos rfl]
  | cons s t ih =>
    intro fuel hfuel rest
    obtain ⟨f, rfl⟩ : ∃ f, fuel = f + 1 := by
      cases fuel
      · simp at hfuel
      · exact ⟨_, rfl⟩
    rw [List.map_cons, List.flatten_cons]
    simp only [List.cons_append, List.append_assoc]
    show Json.parseListBody (f + 1)
        (',' :: (Json.quoteStr s ++ ((t.map fun y => ',' :: Json.quoteStr y).flatten ++
          (']' :: rest)))) = _
    unfold Json.parseListBody
    rw [if_neg (by decide), if_pos rfl]
    rw [show (match f + 1 with
      | 0 => none
      | f + 1 =>
        (Json.parseStr (Json.quoteStr s ++ ((t.map fun y => ',' :: Json.quoteStr y).flatten ++
          (']' :: rest)))).bind fun q =>
          (Json.parseListBody f q.2).map fun q' =>
            (q.1 :: q'.1, q'.2) : Option (List (List Char) × List Char)) =
      (Json.parseStr (Json.quoteStr s ++ ((t.map fun y => ',' :: Json.quoteStr y).flatten ++
          (']' :: rest)))).bind fun q =>
          (Json.parseListBody f q.2).map fun q' => (q.1 :: q'.1, q'.2) from rfl]
    rw [quoteStr_parse, Option.some_bind, ih f (by simpa using hfuel) rest]
    rfl

theorem serTail_length_ge (t : List (List Char)) :
    t.length ≤ ((t.map fun y => ',' :: Json.quoteStr y).flatten).length := by
  induction t with
  | nil => simp
  | cons s t ih =>
    rw [List.map_cons, List.flatten_cons, List.length_append]
    simp only [List.length_cons]
    omega

theorem map_data_map_mk (ys : List String) :
    ((ys.map fun y => y.data).map String.mk) = ys := by
  rw [List.map_map]
  have h : ys.map (String.mk ∘ fun y => y.data) = ys.map (fun y => y) :=
    List.map_congr_left (fun a _ => rfl)
  rw [h, List.map_id']

theorem stringifyList_roundtrip (l : List String) :
    Json.parseList (Json.stringifyList l).data = some (l, []) := by
  cases l with
  | nil => rfl
  | cons s t =>
    have hser : (Json.stringifyList (s :: t)).data =
        '[' :: ('"' :: (((s.data.map Json.escChar).flatten ++ ['"']) ++
          (((t.map fun y => ',' :: Json.quoteStr y.data).flatten) ++ (']' :: [])))) := rfl
    rw [hser]
    have hmain : Json.parseList
        ('[' :: ('"' :: (((s.data.map Json.escChar).flatten ++ ['"']) ++
          (((t.map fun y => ',' :: Json.quoteStr y.data).flatten) ++ (']' :: []))))) =
        (Json.parseStr ('"' :: (((s.data.map Json.escChar).flatten ++ ['"']) ++
          (((t.map fun y => ',' :: Json.quoteStr y.data).flatten) ++ (']' :: []))))).bind
          (fun q => (Json.parseListBody q.2.length q.2).map fun q' =>
            ((q.1 :: q'.1).map String.mk, q'.2)) := rfl
    rw [hmain]
    have hps : Json.parseStr ('"' :: (((s.data.map Json.escChar).flatten ++ ['"']) ++
        (((t.map fun y => ',' :: Json.quoteStr y.data).flatten) ++ (']' :: [])))) =
        some (s.data,
          ((t.map fun y => ',' :: Json.quoteStr y.data).flatten) ++ (']' :: [])) := by
      show Json.parseStrBody (((s.data.map Json.escChar).flatten ++ ['"']) ++
        (((t.map fun y => ',' :: Json.quoteStr y.data).flatten) ++ (']' :: []))) = _
      rw [List.append_assoc, List.singleton_append]
      exact quoteStrBody_parse s.data _
    rw [hps, Option.some_bind]
    have hmaps : (t.map fun y => ',' :: Json.quoteStr y.data) =
        ((t.map fun y => y.data).map fun y => ',' :: Json.quoteStr y) := by
      rw [List.map_map]
      rfl
    rw [hmaps]
    have hlen : ((t.map fun y => y.data)).length ≤
        ((((t.map fun y => y.data).map fun y => ',' :: Json.quoteStr y).flatten) ++
          (']' :: [])).length := by
      rw [List.length_append]
      have := serTail_length_ge (t.map fun y => y.data)
      omega
    rw [parseListBody_roundtrip (t.map fun y => y.data) _ hlen []]
    rw [Option.map_some']
    show some (((s.data :: (t.map fun y => y.data)).map String.mk), ([] : List Char)) =
      some (s :: t, [])
    rw [show (s.data :: (t.map fun y => y.data)) =
      (((s :: t)).map fun y => y.data) from rfl, map_data_map_mk]

theorem journal_foldl (pid : String) :
    ∀ (j : List JEntry) (db : DBState),
      j.foldl (fun d e => Db.insertJournalEntry d e.id pid e.date e.text e.type) db =
        { db with journal := db.journal ++ j.map (entryRowOf pid) } := by
  intro j
  induction j with
  | nil => intro db; simp
  | cons e j ih =>
    intro db
    rw [List.foldl_cons, ih]
    simp [Db.insertJournalEntry, entryRowOf]

theorem writePlant_eq (db : DBState) (areaId : String) (p : Plant) :
    writePlant db areaId p =
      { db with plants := db.plants ++ [plantRowOf areaId p],
                journal := db.journal ++ p.journal.map (entryRowOf p.id) } := by
  unfold writePlant
  rw [journal_foldl]
  rfl

theorem plants_foldl (areaId : String) :
    ∀ (ps : List Plant) (db : DBState),
      ps.foldl (fun d p => writePlant d areaId p) db =
        { db with plants := db.plants ++ ps.map (plantRowOf areaId),
                  journal := db.journal ++
                    (ps.map fun p => p.journal.map (entryRowOf p.id)).flatten } := by
  intro ps
  induction ps with
  | nil => intro db; simp
  | cons p ps ih =>
    intro db
    rw [List.foldl_cons, writePlant_eq, ih]
    simp

theorem writeArea_eq (db : DBState) (a : Area) :
    writeArea db a =
      { db with areas := db.areas ++ [areaRowOf a],
                plants := db.plants ++ a.plants.map (plantRowOf a.id),
                journal := db.journal ++
                  (a.plants.map fun p => p.journal.map (entryRowOf p.id)).flatten } := by
  unfold writeArea
  rw [plants_foldl]
  rfl

theorem areas_foldl :
    ∀ (g : List Area) (db : DBState),
      g.foldl writeArea db =
        { db with
            areas := db.areas ++ g.map areaRowOf,
            plants := db.plants ++ (g.map fun a => a.plants.map (plantRowOf a.id)).flatten,
            journal := db.journal ++
              (g.map fun a =>
                (a.plants.map fun p => p.journal.map (entryRowOf p.id)).flatten).flatten } := by
  intro g
  induction g with
  | nil => intro db; simp
  | cons a g ih =>
    intro db
    rw [List.foldl_cons, writeArea_eq, ih]
    simp

theorem writeGarden_eq (g : List Area) : writeGarden g = gardenDB g := by
  unfold writeGarden gardenDB
  rw [areas_foldl]
  simp

theorem filter_flatten_groups {α β : Type} (key : α → String) (rows : α → List β)
    (rowKey : β → String) :
    ∀ (items : List α), (∀ x ∈ items, ∀ r ∈ rows x, rowKey r = key x) →
      ∀ a ∈ items, (items.map key).Nodup →
        ((items.map rows).flatten.filter fun r => rowKey r = key a) = rows a := by
  intro items
  induction items with
  | nil => intro _ a ha; cases ha
  | cons x t ih =>
    intro hrows a ha hnodup
    rw [List.map_cons, List.flatten_cons, List.filter_append]
    have hnodup' : (t.map key).Nodup := by
      rw [List.map_cons] at hnodup
      exact hnodup.of_cons
    have hxnot : key x ∉ t.map key := by
      rw [List.map_cons] at hnodup
      exact (List.nodup_cons.mp hnodup).1
    rcases List.mem_cons.mp ha with rfl | hat
    · have h1 : (rows a).filter (fun r => rowKey r = key a) = rows a :=
        List.filter_eq_self.mpr (fun r hr => by
          simpa using hrows a (List.mem_cons_self a t) r hr)
      have h2 : (t.map rows).flatten.filter (fun r => rowKey r = key a) = [] := by
        rw [List.filter_eq_nil_iff]
        intro r hr
        obtain ⟨l, hl, hrl⟩ := List.mem_flatten.mp hr
        obtain ⟨y, hy, rfl⟩ := List.mem_map.mp hl
        have hkey := hrows y (List.mem_cons_of_mem a hy) r hrl
        simp only [decide_eq_true_eq]
        rw [hkey]
        intro hcontra
        exact hxnot (hcontra ▸ List.mem_map_of_mem key hy)
      rw [h1, h2, List.append_nil]
    · have hne : key x ≠ key a := by
        intro hcontra
        exact hxnot (hcontra ▸ List.mem_map_of_mem key hat)
      have h1 : (rows x).filter (fun r => rowKey r = key a) = [] := by
        rw [List.filter_eq_nil_iff]
        intro r hr
        have hkey := hrows x (List.mem_cons_self x t) r hr
        simp only [decide_eq_true_eq]
        rw [hkey]
        exact hne
      rw [h1, List.nil_append]
      exact ih (fun y hy => hrows y (List.mem_cons_of_mem x hy)) a hat hnodup'

theorem nested_flatten_journal (g : List Area) :
    (g.map fun a => (a.plants.map fun p => p.journal.map (entryRowOf p.id)).flatten).flatten =
      (((g.map fun a => a.plants).flatten).map fun p =>
        p.journal.map (entryRowOf p.id)).flatten := by
  induction g with
  | nil => rfl
  | cons a t ih =>
    simp only [List.map_cons, List.flatten_cons, List.map_append, List.flatten_append, ih]

theorem decide_bool_encode (b : Bool) :
    decide ((if b = true then (1 : Nat) else 0) = 1) = b := by
  cases b <;> rfl

/-- C7: writing any nested garden (areas with their plants and journal
entries, all with distinct primary-key ids) through the insert
functions and loading it back with `loadAllAreas` reproduces the
structure exactly — same field values, same nesting, same order; and a
custom catalog entry written with `insertCustomSeed` comes back from
`loadAllCustomSeeds` appended in insertion order with its boolean
fields as booleans and its `planting_seasons` array unchanged by the
0/1 and JSON-text storage encoding. -/
theorem c7_round_trip :
    (∀ (g : List Area),
      (g.map fun a => a.id).Nodup →
      (((g.map fun a => a.plants).flatten).map fun p => p.id).Nodup →
      Db.loadAllAreas (writeGarden g) = g) ∧
    (∀ (tbl : List SeedRow) (seed : CustomSeed),
      ∃ loaded, Db.loadAllCustomSeeds (Db.insertCustomSeed tbl seed) =
          Db.loadAllCustomSeeds tbl ++ [loaded] ∧
        loaded.planting_seasons = seed.planting_seasons ∧
        loaded.suitable_for_containers = seed.suitable_for_containers ∧
        loaded.requires_trellis = seed.requires_trellis ∧
        loaded.drought_tolerant = seed.drought_tolerant ∧
        loaded.isCustom = true ∧
        loaded.id = seed.id ∧ loaded.title = seed.title ∧
        loaded.category = seed.category) := by
  constructor
  · intro g hA hP
    rw [writeGarden_eq]
    show ((gardenDB g).areas).map (Db.loadAreaRow (gardenDB g)) = g
    rw [show (gardenDB g).areas = g.map areaRowOf from rfl, List.map_map]
    have hmain : ∀ a ∈ g, (Db.loadAreaRow (gardenDB g) ∘ areaRowOf) a = a := by
      intro a ha
      show Db.loadAreaRow (gardenDB g) (areaRowOf a) = a
      unfold Db.loadAreaRow
      have hplants : ((gardenDB g).plants.filter
          fun r => r.area_id = (areaRowOf a).id) = a.plants.map (plantRowOf a.id) := by
        show (((g.map fun a => a.plants.map (plantRowOf a.id)).flatten).filter
          fun r => r.area_id = a.id) = _
        exact filter_flatten_groups (fun a => a.id)
          (fun a => a.plants.map (plantRowOf a.id)) (fun r => r.area_id) g
          (fun x _ r hr => by
            obtain ⟨p, _, rfl⟩ := List.mem_map.mp hr
            rfl)
          a ha hA
      rw [hplants, List.map_map]
      have hper : ∀ p ∈ a.plants, (Db.loadPlantRow (gardenDB g) ∘ plantRowOf a.id) p = p := by
        intro p hp
        show Db.loadPlantRow (gardenDB g) (plantRowOf a.id p) = p
        unfold Db.loadPlantRow
        have hj : ((gardenDB g).journal.filter
            fun e => e.plant_id = (plantRowOf a.id p).id) =
            p.journal.map (entryRowOf p.id) := by
          show ((g.map fun a =>
            (a.plants.map fun p => p.journal.map (entryRowOf p.id)).flatten).flatten.filter
              fun e => e.plant_id = p.id) = _
          rw [nested_flatten_journal]
          exact filter_flatten_groups (fun p => p.id)
            (fun p => p.journal.map (entryRowOf p.id)) (fun e => e.plant_id)
            ((g.map fun a => a.plants).flatten)
            (fun x _ r hr => by
              obtain ⟨e, _, rfl⟩ := List.mem_map.mp hr
              rfl)
            p (List.mem_flatten.mpr ⟨a.plants, List.mem_map_of_mem _ ha, hp⟩) hP
        rw [hj, List.map_map]
        have hentry : ∀ e ∈ p.journal, (Db.loadEntryRow ∘ entryRowOf p.id) e = e := by
          intro e _
          rfl
        rw [List.map_congr_left hentry, List.map_id']
        rfl
      rw [List.map_congr_left hper, List.map_id']
      rfl
    rw [List.map_congr_left hmain, List.map_id']
  · intro tbl seed
    refine ⟨Db.loadSeedRow (Db.seedRowOf seed), ?_, ?_, ?_, ?_, ?_, ?_, ?_, ?_, ?_⟩
    · show (tbl ++ [Db.seedRowOf seed]).map Db.loadSeedRow = _
      rw [List.map_append]
      rfl
    · show (match (some (Json.stringifyList seed.planting_seasons) : Option String) with
        | none => ([] : List String)
        | some s =>
          if s = "" then []
          else match Json.parseList s.data with
               | some (items, []) => items
               | _ => []) = seed.planting_seasons
      have hne : Json.stringifyList seed.planting_seasons ≠ "" := by
        cases seed.planting_seasons with
        | nil => rw [Json.stringifyList]; decide
        | cons x xs =>
          rw [Json.stringifyList]
          intro hcon
          exact absurd (congrArg String.data hcon) (by simp)
      rw [show (match (some (Json.stringifyList seed.planting_seasons) : Option String) with
        | none => ([] : List String)
        | some s =>
          if s = "" then []
          else match Json.parseList s.data with
               | some (items, []) => items
               | _ => []) =
        (if Json.stringifyList seed.planting_seasons = "" then []
         else match Json.parseList (Json.stringifyList seed.planting_seasons).data with
              | some (items, []) => items
              | _ => []) from rfl]
      rw [if_neg hne, stringifyList_roundtrip]
    · show decide ((if seed.suitable_for_containers = true then 1 else 0) = 1) =
        seed.suitable_for_containers
      exact decide_bool_encode seed.suitable_for_containers
    · show decide ((if seed.requires_trellis = true then 1 else 0) = 1) =
        seed.requires_trellis
      exact decide_bool_encode seed.requires_trellis
    · show decide ((if seed.drought_tolerant = true then 1 else 0) = 1) =
        seed.drought_tolerant
      exact decide_bool_encode seed.drought_tolerant
    · rfl
    · rfl
    · rfl
    · rfl

/-- Witness for C7: a concrete two-area garden with plants and journal
entries survives write-then-load, and a concrete custom seed with a
two-season array and mixed boolean flags survives the row encoding. -/
theorem c7_witness :
    Db.loadAllAreas (writeGarden sampleState) = sampleState ∧
    (∃ loaded, Db.loadAllCustomSeeds
        (Db.insertCustomSeed []
          ⟨"custom_s1", "Heirloom Tomato", "Vegetable", some "Solanum lycopersicum", none,
           none, none, true, ["Spring", "Summer"], none, none, none, none, none, none,
           true, false, none, none, none, none, none, none, true⟩) =
        Db.loadAllCustomSeeds [] ++ [loaded] ∧
      loaded.planting_seasons = ["Spring", "Summer"] ∧
      loaded.suitable_for_containers = true ∧
      loaded.requires_trellis = false ∧
      loaded.drought_tolerant = true ∧
      loaded.isCustom = true ∧
      loaded.id = "custom_s1" ∧ loaded.title = "Heirloom Tomato" ∧
      loaded.category = "Vegetable") :=
  ⟨c7_round_trip.1 sampleState (by decide) (by decide),
   c7_round_trip.2 []
     ⟨"custom_s1", "Heirloom Tomato", "Vegetable", some "Solanum lycopersicum", none,
      none, none, true, ["Spring", "Summer"], none, none, none, none, none, none,
      true, false, none, none, none, none, none, none, true⟩⟩

/-- C8: after `deleteArea(id)` (with the schema's ON DELETE CASCADE) no
area row with that id, no plant row of that area, and no journal row of
those plants remains, and a subsequent `loadAllAreas` is exactly the
previous load with that area removed (all other areas unchanged, in
order); after `deletePlant(id)` no journal row of that plant remains,
and a subsequent `loadAllAreas` is exactly the previous load with that
plant filtered out of its area — its area's fields and all sibling
plants with their journals unchanged, in order.  (`id` columns are
PRIMARY KEYs, hence the no-duplicate hypothesis.) -/
theorem c8_cascade_invariant (db : DBState) (id pid : String)
    (hnodupP : (db.plants.map (·.id)).Nodup) :
    (∀ r ∈ (Db.deleteArea db id).areas, r.id ≠ id) ∧
    (∀ p ∈ (Db.deleteArea db id).plants, p.area_id ≠ id) ∧
    (∀ e ∈ (Db.deleteArea db id).journal, ∀ p ∈ db.plants, p.area_id = id →
      e.plant_id ≠ p.id) ∧
    Db.loadAllAreas (Db.deleteArea db id) =
      (Db.loadAllAreas db).filter (fun a => a.id ≠ id) ∧
    (∀ p ∈ (Db.deletePlant db pid).plants, p.id ≠ pid) ∧
    (∀ e ∈ (Db.deletePlant db pid).journal, e.plant_id ≠ pid) ∧
    Db.loadAllAreas (Db.deletePlant db pid) =
      (Db.loadAllAreas db).map
        (fun a => { a with plants := a.plants.filter fun p => p.id ≠ pid }) := by
  have hinj : ∀ x ∈ db.plants, ∀ y ∈ db.plants, x.id = y.id → x = y :=
    fun x hx y hy hxy => List.inj_on_of_nodup_map hnodupP hx hy hxy
  refine ⟨?_, ?_, ?_, ?_, ?_, ?_, ?_⟩
  · intro r hr
    simpa using List.of_mem_filter hr
  · intro p hp
    simpa using List.of_mem_filter hp
  · intro e he p hp harea
    have hnotdead := List.of_mem_filter he
    simp only [decide_eq_true_eq] at hnotdead
    intro hcontra
    exact hnotdead (List.mem_map.mpr ⟨p, List.mem_filter.mpr ⟨hp, by simpa using harea⟩,
      hcontra.symm⟩)
  · have hR : (Db.loadAllAreas db).filter (fun a => a.id ≠ id) =
        (db.areas.filter (fun r => r.id ≠ id)).map (Db.loadAreaRow db) := by
      unfold Db.loadAllAreas
      rw [List.filter_map]
      rfl
    rw [hR]
    show (db.areas.filter (fun r => r.id ≠ id)).map (Db.loadAreaRow (Db.deleteArea db id)) =
      (db.areas.filter (fun r => r.id ≠ id)).map (Db.loadAreaRow db)
    apply List.map_congr_left
    intro r hr
    have hrne : r.id ≠ id := by simpa using List.of_mem_filter hr
    unfold Db.loadAreaRow
    have hplants : ((Db.deleteArea db id).plants.filter fun p => p.area_id = r.id).map
        (Db.loadPlantRow (Db.deleteArea db id)) =
        (db.plants.filter fun p => p.area_id = r.id).map (Db.loadPlantRow db) := by
      have hfil : ((Db.deleteArea db id).plants.filter fun p => p.area_id = r.id) =
          db.plants.filter fun p => p.area_id = r.id := by
        show ((db.plants.filter fun p => p.area_id ≠ id).filter
            fun p => p.area_id = r.id) = _
        rw [List.filter_filter]
        apply List.filter_congr
        intro x _
        by_cases hx : x.area_id = r.id
        · simp [hx, hrne]
        · simp [hx]
      rw [hfil]
      apply List.map_congr_left
      intro p hp
      have hparea : p.area_id = r.id := by simpa using List.of_mem_filter hp
      have hpmem : p ∈ db.plants := List.mem_of_mem_filter hp
      unfold Db.loadPlantRow
      have hj : ((Db.deleteArea db id).journal.filter fun e => e.plant_id = p.id) =
          db.journal.filter fun e => e.plant_id = p.id := by
        show ((db.journal.filter _).filter fun e => e.plant_id = p.id) = _
        rw [List.filter_filter]
        apply List.filter_congr
        intro e _
        by_cases he : e.plant_id = p.id
        · have hnotdead : p.id ∉
              ((db.plants.filter fun q => q.area_id = id).map (·.id)) := by
            intro hcontra
            obtain ⟨q, hq, hqid⟩ := List.mem_map.mp hcontra
            have hqmem : q ∈ db.plants := List.mem_of_mem_filter hq
            have hqarea : q.area_id = id := by simpa using List.of_mem_filter hq
            have : q = p := hinj q hqmem p hpmem hqid
            rw [this, hparea] at hqarea
            exact hrne hqarea
          simp [he, hnotdead]
        · simp [he]
      rw [hj]
    rw [hplants]
  · intro p hp
    simpa using List.of_mem_filter hp
  · intro e he
    simpa using List.of_mem_filter he
  · show db.areas.map (Db.loadAreaRow (Db.deletePlant db pid)) = _
    unfold Db.loadAllAreas
    rw [List.map_map]
    apply List.map_congr_left
    intro a _
    show Db.loadAreaRow (Db.deletePlant db pid) a =
      { Db.loadAreaRow db a with
          plants := (Db.loadAreaRow db a).plants.filter fun p => p.id ≠ pid }
    unfold Db.loadAreaRow
    have hplants : ((Db.deletePlant db pid).plants.filter fun p => p.area_id = a.id).map
        (Db.loadPlantRow (Db.deletePlant db pid)) =
        ((db.plants.filter fun p => p.area_id = a.id).map (Db.loadPlantRow db)).filter
          (fun p => p.id ≠ pid) := by
      rw [List.filter_map]
      have hfil : ((Db.deletePlant db pid).plants.filter fun p => p.area_id = a.id) =
          (db.plants.filter fun p => p.area_id = a.id).filter
            ((fun p => decide (p.id ≠ pid)) ∘ Db.loadPlantRow db) := by
        show ((db.plants.filter fun p => p.id ≠ pid).filter fun p => p.area_id = a.id) = _
        rw [List.filter_filter, List.filter_filter]
        apply List.filter_congr
        intro x _
        show (decide (x.area_id = a.id) && decide ¬(x.id = pid)) = _
        by_cases h1 : x.area_id = a.id <;> by_cases h2 : x.id = pid <;>
          simp [h1, h2, Function.comp, Db.loadPlantRow]
      rw [hfil]
      apply List.map_congr_left
      intro p hp
      have hpne : p.id ≠ pid := by
        have := List.of_mem_filter hp
        simpa [Function.comp, Db.loadPlantRow] using this
      unfold Db.loadPlantRow
      have hj : ((Db.deletePlant db pid).journal.filter fun e => e.plant_id = p.id) =
          db.journal.filter fun e => e.plant_id = p.id := by
        show ((db.journal.filter fun e => e.plant_id ≠ pid).filter
            fun e => e.plant_id = p.id) = _
        rw [List.filter_filter]
        apply List.filter_congr
        intro e _
        by_cases he : e.plant_id = p.id
        · simp [he, hpne]
        · simp [he]
      rw [hj]
    rw [hplants]

/-- Witness for C8 on a concrete database: deleting area `a1` removes
its plant and journal rows and its loaded area; deleting plant `p1`
removes its journal rows and filters it out of the load. -/
theorem c8_witness :
    (Db.loadAllAreas
        (Db.deleteArea
          ⟨[⟨"a1", "Bed One", "🪴", "2025-01-01"⟩, ⟨"a2", "Bed Two", "🌻", "2025-01-02"⟩],
           [⟨"p1", "a1", none, some "Basil", some "Herb", none, "2025-01-02", none⟩],
           [⟨"e1", "p1", "2 Jan 2025", "note text", "note"⟩]⟩ "a1") =
      (Db.loadAllAreas
          ⟨[⟨"a1", "Bed One", "🪴", "2025-01-01"⟩, ⟨"a2", "Bed Two", "🌻", "2025-01-02"⟩],
           [⟨"p1", "a1", none, some "Basil", some "Herb", none, "2025-01-02", none⟩],
           [⟨"e1", "p1", "2 Jan 2025", "note text", "note"⟩]⟩).filter
        (fun a => a.id ≠ "a1")) ∧
    (∀ e ∈ (Db.deletePlant
          ⟨[⟨"a1", "Bed One", "🪴", "2025-01-01"⟩, ⟨"a2", "Bed Two", "🌻", "2025-01-02"⟩],
           [⟨"p1", "a1", none, some "Basil", some "Herb", none, "2025-01-02", none⟩],
           [⟨"e1", "p1", "2 Jan 2025", "note text", "note"⟩]⟩ "p1").journal,
      e.plant_id ≠ "p1") :=
  have h := c8_cascade_invariant
    ⟨[⟨"a1", "Bed One", "🪴", "2025-01-01"⟩, ⟨"a2", "Bed Two", "🌻", "2025-01-02"⟩],
     [⟨"p1", "a1", none, some "Basil", some "Herb", none, "2025-01-02", none⟩],
     [⟨"e1", "p1", "2 Jan 2025", "note text", "note"⟩]⟩ "a1" "p1" (by decide)
  ⟨h.2.2.2.1, h.2.2.2.2.2.1⟩

end Garden
